import Mathlib

/-!
Shallow embedding of the assessment service core (`assessment/ragflow_client.py`
and `assessment/services.py`) together with proofs about the embedded
operations.  Python strings are modelled as Lean `String`/`List Char`,
Python `None`-able values as `Option`, Python dict rows as structures, and
fallible operations as `Except`.  Machine-level concerns (HTTP transport,
tracing spans, the database driver) are abstracted into explicit inputs and
outputs of the modelled functions.
-/

namespace RagflowSpec

/-! ## Citation markers — `RagflowClient.get_cited_indices`

Python source (`ragflow_client.py`):
`return {int(i) for i in re.findall(r"\[ID:(\d+)\]", answer_text)}`.
`re.findall` scans left to right for non-overlapping matches of the literal
prefix `[ID:`, a maximal nonempty digit run, and a closing `]`.
-/

/-- Match the regex `\[ID:(\d+)\]` at the head of the character list.
On success, return the numeric value of the digit group and the characters
following the match. -/
def matchIdAt : List Char → Option (Nat × List Char)
  | '[' :: 'I' :: 'D' :: ':' :: rest =>
    let digits := rest.takeWhile Char.isDigit
    if digits.isEmpty then none
    else
      match rest.dropWhile Char.isDigit with
      | ']' :: rest2 =>
        some (digits.foldl (fun a c => a * 10 + (c.toNat - Char.toNat '0')) 0, rest2)
      | _ => none
  | _ => none

/-- Left-to-right non-overlapping scan for `[ID:N]` markers; the fuel is an
upper bound on the number of scan steps (each step consumes at least one
character, so the initial string length suffices). -/
def findIdMarkersAux : Nat → List Char → List Nat
  | 0, _ => []
  | _ + 1, [] => []
  | fuel + 1, c :: cs =>
    match matchIdAt (c :: cs) with
    | some (n, rest) => n :: findIdMarkersAux fuel rest
    | none => findIdMarkersAux fuel cs

/-- `RagflowClient.get_cited_indices`: the set of `[ID:N]` indices found in the
answer, modelled as the list of matched values (membership is what the caller
uses, so duplicates are irrelevant). -/
def get_cited_indices (answer_text : String) : List Nat :=
  findIdMarkersAux answer_text.length answer_text.toList

/-! ## The reference record produced by `RagflowClient.extract_references` -/

/-- One cleaned-up reference dict (`models.Reference`).  Positional values are
integers in the payloads the code handles; `float()` conversions on them are
exact, so coordinates are kept as `Int`. -/
structure Reference where
  document_name : String
  document_type : String
  page_number : Option Int
  chunk_index : Option Int
  coordinates : Option (List Int)
  snippet : String
  image_url : Option String
  document_url : Option String
deriving DecidableEq, Repr

/-- A reference with only the document name populated (used for concrete
test inputs). -/
def mkRef (name : String) : Reference :=
  ⟨name, "", none, none, none, "", none, none⟩

/-! ## Cited-reference filtering — `services._process_questions._process_one`

Python source (`services.py`, lines 359–365):
```
if do_only_cited and raw_refs:
    cited = RagflowClient.get_cited_indices(answer_text)
    if cited:
        raw_refs = [
            r for i, r in enumerate(raw_refs) if i in cited
        ]
```
-/

/-- The reference-filtering step of `_process_one`. -/
def filterCitedReferences (doOnlyCited : Bool) (answer_text : String)
    (rawRefs : List Reference) : List Reference :=
  if doOnlyCited = true ∧ rawRefs ≠ [] then
    let cited := get_cited_indices answer_text
    if cited ≠ [] then
      ((rawRefs.enum.filter (fun p => decide (p.1 ∈ cited))).map Prod.snd)
    else rawRefs
  else rawRefs

/-- Spec-side reading of "keeps exactly the references whose 0-based position
in the original reference list is a cited index, in their original relative
order", as a recursion over the list carrying the current position. -/
def citedFilterSpecFrom (cited : List Nat) : Nat → List Reference → List Reference
  | _, [] => []
  | k, r :: rs =>
    if k ∈ cited then r :: citedFilterSpecFrom cited (k + 1) rs
    else citedFilterSpecFrom cited (k + 1) rs

/-- Positional filtering starting at position 0. -/
def citedFilterSpec (cited : List Nat) (refs : List Reference) : List Reference :=
  citedFilterSpecFrom cited 0 refs

lemma enumFrom_filter_map_eq_spec (cited : List Nat) :
    ∀ (k : Nat) (l : List Reference),
      ((List.enumFrom k l).filter (fun p => decide (p.1 ∈ cited))).map Prod.snd
        = citedFilterSpecFrom cited k l := by
  intro k l
  induction l generalizing k with
  | nil => rfl
  | cons r rs ih =>
    simp only [List.enumFrom, List.filter, citedFilterSpecFrom]
    by_cases h : k ∈ cited
    · simp [h, ih]
    · simp [h, ih]

lemma citedFilterSpecFrom_nil_of_out_of_range (cited : List Nat) :
    ∀ (k : Nat) (l : List Reference),
      (∀ i ∈ cited, k + l.length ≤ i) → citedFilterSpecFrom cited k l = [] := by
  intro k l
  induction l generalizing k with
  | nil => intro _; rfl
  | cons r rs ih =>
    intro h
    have hk : k ∉ cited := by
      intro hmem
      have := h k hmem
      simp only [List.length_cons] at this
      omega
    simp only [citedFilterSpecFrom, hk, if_false, if_neg]
    exact ih (k + 1) (fun i hi => by
      have := h i hi
      simp only [List.length_cons] at this
      omega)

lemma filterCited_engaged (ans : String) (refs : List Reference)
    (h1 : refs ≠ []) (h2 : get_cited_indices ans ≠ []) :
    filterCitedReferences true ans refs
      = citedFilterSpec (get_cited_indices ans) refs := by
  simp only [filterCitedReferences]
  rw [if_pos ⟨trivial, h1⟩, if_pos h2]
  exact enumFrom_filter_map_eq_spec _ 0 refs

/-- C1, counterexample: with "only cited references" enabled, an answer citing
only `[ID:5]` against a three-element reference list yields the EMPTY list,
not the full original list — the claimed fallback does not exist in
`_process_one`. -/
theorem C1_counterexample :
    get_cited_indices "Only [ID:5] supports this." ≠ [] ∧
    (∀ i ∈ get_cited_indices "Only [ID:5] supports this.", 3 ≤ i) ∧
    filterCitedReferences true "Only [ID:5] supports this."
        [mkRef "a.pdf", mkRef "b.pdf", mkRef "c.pdf"] = [] ∧
    filterCitedReferences true "Only [ID:5] supports this."
        [mkRef "a.pdf", mkRef "b.pdf", mkRef "c.pdf"]
      ≠ [mkRef "a.pdf", mkRef "b.pdf", mkRef "c.pdf"] := by
  decide

/-- C1 (amended): when "only cited references" is enabled, the reference list
is non-empty, and the answer contains at least one `[ID:N]` marker, the
processor keeps exactly the references whose 0-based position is a cited
index, in their original relative order; when the non-empty cited-index set
matches none of the positions, the result is the EMPTY list (there is no
fallback to the full list). -/
theorem C1_cited_filter (ans : String) (refs : List Reference)
    (h1 : refs ≠ []) (h2 : get_cited_indices ans ≠ []) :
    filterCitedReferences true ans refs
        = citedFilterSpec (get_cited_indices ans) refs ∧
    ((∀ i ∈ get_cited_indices ans, refs.length ≤ i) →
      filterCitedReferences true ans refs = []) := by
  refine ⟨filterCited_engaged ans refs h1 h2, fun hout => ?_⟩
  rw [filterCited_engaged ans refs h1 h2]
  exact citedFilterSpecFrom_nil_of_out_of_range _ 0 refs
    (fun i hi => by simpa using hout i hi)

/-- C1 witness: the amended theorem applied to the spec's concrete example —
answer citing `[ID:0]` and `[ID:2]` with three reference chunks keeps exactly
the references at positions 0 and 2, in that order. -/
theorem C1_cited_filter_witness :
    (filterCitedReferences true "Based on [ID:0] and [ID:2], the answer is yes."
          [mkRef "a.pdf", mkRef "b.pdf", mkRef "c.xlsx"]
        = citedFilterSpec
            (get_cited_indices "Based on [ID:0] and [ID:2], the answer is yes.")
            [mkRef "a.pdf", mkRef "b.pdf", mkRef "c.xlsx"] ∧
      ((∀ i ∈ get_cited_indices "Based on [ID:0] and [ID:2], the answer is yes.",
          ([mkRef "a.pdf", mkRef "b.pdf", mkRef "c.xlsx"] : List Reference).length ≤ i) →
        filterCitedReferences true "Based on [ID:0] and [ID:2], the answer is yes."
          [mkRef "a.pdf", mkRef "b.pdf", mkRef "c.xlsx"] = [])) ∧
    filterCitedReferences true "Based on [ID:0] and [ID:2], the answer is yes."
        [mkRef "a.pdf", mkRef "b.pdf", mkRef "c.xlsx"]
      = [mkRef "a.pdf", mkRef "c.xlsx"] :=
  ⟨C1_cited_filter _ _ (by decide) (by decide), by decide⟩

/-! ## Task data model (`assessment/models.py`)

Timestamps are modelled as abstract `Nat` ticks; the claims only require
that `updated_at` is stamped on every mutation.
-/

inductive TaskState where
  | pending | awaiting_documents | uploading | parsing | processing | completed | failed
deriving DecidableEq, Repr

inductive PipelineStage where
  | idle | document_upload | document_parsing | chat_processing | finalizing
deriving DecidableEq, Repr

/-- `models.Question` rows produced by `parse_questions_excel`. -/
structure Question where
  serial_no : String
  question : String
  vendor_response : String
  vendor_comment : String
deriving DecidableEq, Repr

/-- `models.QuestionResult`. -/
structure QuestionResult where
  question_serial_no : String
  question : String
  vendor_response : String
  vendor_comment : String
  ai_response : String
  details : String
  references : List Reference
deriving DecidableEq, Repr

/-- `models.DocumentStatus`; `progress` is a fraction in `[0, 1]`, modelled
exactly as a rational (the code only ever compares it, never does float
arithmetic on it). -/
structure DocumentStatus where
  document_id : String
  document_name : String
  status : String
  progress : ℚ
  message : String
deriving DecidableEq, Repr

/-- `models.TaskStatus`, including the RAGFlow-ID mirror fields that
`_sync_ragflow_ids` copies from the context. -/
structure TaskStatus where
  task_id : String
  state : TaskState
  pipeline_stage : PipelineStage
  progress_message : String
  total_questions : Nat
  questions_processed : Nat
  created_at : Nat
  updated_at : Nat
  error : Option String
  dataset_id : Option String
  dataset_ids : List String
  chat_id : Option String
  session_id : Option String
  document_ids : List String
  document_statuses : List DocumentStatus
deriving DecidableEq, Repr

/-- `models.RagflowContext`.  The `file_hashes` dict is modelled as an
association list (hash, document_id). -/
structure RagflowContext where
  dataset_id : String
  dataset_ids : List String
  document_ids : List String
  file_hashes : List (String × String)
  chat_id : String
  session_id : String
deriving DecidableEq, Repr

/-- `models.TaskRecord`. -/
structure TaskRecord where
  task_id : String
  status : TaskStatus
  ragflow : RagflowContext
  questions : List Question
  results : List QuestionResult
  document_statuses : List DocumentStatus
deriving DecidableEq, Repr

/-! ## Pagination — `services.get_paginated_results` -/

/-- The dict returned by `get_paginated_results`. -/
structure PaginatedResults where
  task_id : String
  state : TaskState
  total_questions : Nat
  questions_processed : Nat
  results : List QuestionResult
  page : Int
  page_size : Nat
  total_pages : Nat
  dataset_id : Option String
  dataset_ids : List String
  chat_id : Option String
  session_id : Option String
  document_ids : List String
  document_statuses : List DocumentStatus
deriving DecidableEq, Repr

/-- `services.get_paginated_results`.  `math.ceil(total / page_size)` on
non-negative integers is the exact ceiling division modelled here; the
requested page may be any integer (negative, zero, or past the end). -/
def get_paginated_results (record : TaskRecord) (page : Int) (page_size : Nat) :
    PaginatedResults :=
  let total := record.results.length
  let total_pages : Nat := max 1 ((total + page_size - 1) / page_size)
  let page1 : Int := max 1 (min page (total_pages : Int))
  let start : Nat := ((page1 - 1) * (page_size : Int)).toNat
  { task_id := record.task_id
    state := record.status.state
    total_questions := record.status.total_questions
    questions_processed := record.status.questions_processed
    results := (record.results.drop start).take page_size
    page := page1
    page_size := page_size
    total_pages := total_pages
    dataset_id := if record.ragflow.dataset_id = "" then none else some record.ragflow.dataset_id
    dataset_ids :=
      if record.ragflow.dataset_ids ≠ [] then record.ragflow.dataset_ids
      else if record.ragflow.dataset_id ≠ "" then [record.ragflow.dataset_id] else []
    chat_id := if record.ragflow.chat_id = "" then none else some record.ragflow.chat_id
    session_id := if record.ragflow.session_id = "" then none else some record.ragflow.session_id
    document_ids := record.ragflow.document_ids
    document_statuses := record.document_statuses }

/-- C10: for any record, any integer page (zero, negative, or past the last
page), and any `page_size ≥ 1`, pagination is total and clamps the page into
`[1, total_pages]`, where `total_pages = max 1 (ceil (results / page_size))`
is at least 1 even for an empty results list; the returned results are the
slice belonging to the clamped page. -/
theorem C10_pagination_clamps (record : TaskRecord) (page : Int) (page_size : Nat)
    (h : 1 ≤ page_size) :
    1 ≤ (get_paginated_results record page page_size).page ∧
    (get_paginated_results record page page_size).page
      ≤ ((get_paginated_results record page page_size).total_pages : Int) ∧
    (get_paginated_results record page page_size).total_pages
      = max 1 ((record.results.length + page_size - 1) / page_size) ∧
    1 ≤ (get_paginated_results record page page_size).total_pages ∧
    (get_paginated_results record page page_size).results
      = (record.results.drop
          ((((get_paginated_results record page page_size).page - 1)
            * (page_size : Int)).toNat)).take page_size := by
  refine ⟨?_, ?_, rfl, ?_, rfl⟩
  · exact le_max_left _ _
  · simp only [get_paginated_results]
    refine max_le ?_ (min_le_right _ _)
    have h1 : 1 ≤ max 1 ((record.results.length + page_size - 1) / page_size) :=
      le_max_left _ _
    exact_mod_cast h1
  · exact le_max_left _ _

/-- A concrete task record with three results, used as a test input. -/
def sampleTaskRecord : TaskRecord :=
  ⟨"t1",
   ⟨"t1", TaskState.completed, PipelineStage.finalizing, "", 3, 3, 0, 0, none,
    none, [], none, none, [], []⟩,
   ⟨"", [], [], [], "", ""⟩, [],
   [⟨"1", "q1", "", "", "Yes", "", []⟩,
    ⟨"2", "q2", "", "", "No", "", []⟩,
    ⟨"3", "q3", "", "", "N/A", "", []⟩], []⟩

/-- C10 witness: pagination applied to a concrete record with 3 results,
page -7, page_size 2 — the page clamps to 1 and there are 2 total pages. -/
theorem C10_pagination_clamps_witness :
    (1 ≤ (get_paginated_results sampleTaskRecord (-7) 2).page ∧
     (get_paginated_results sampleTaskRecord (-7) 2).page
       ≤ ((get_paginated_results sampleTaskRecord (-7) 2).total_pages : Int) ∧
     (get_paginated_results sampleTaskRecord (-7) 2).total_pages
       = max 1 ((sampleTaskRecord.results.length + 2 - 1) / 2) ∧
     1 ≤ (get_paginated_results sampleTaskRecord (-7) 2).total_pages ∧
     (get_paginated_results sampleTaskRecord (-7) 2).results
       = (sampleTaskRecord.results.drop
           ((((get_paginated_results sampleTaskRecord (-7) 2).page - 1)
             * (2 : Int)).toNat)).take 2) ∧
    (get_paginated_results sampleTaskRecord (-7) 2).page = 1 ∧
    (get_paginated_results sampleTaskRecord (-7) 2).total_pages = 2 :=
  ⟨C10_pagination_clamps sampleTaskRecord (-7) 2 (by decide), by decide, by decide⟩

/-! ## Document-type detection — `RagflowClient._detect_doc_type`

`os.path.splitext` (POSIX): the extension starts at the last dot of the
basename, provided some earlier character of the basename is not a dot
(so dotfiles like `.bashrc` have no extension).
-/

/-- The basename: characters after the last `/`. -/
def afterLastSep (l : List Char) : List Char :=
  match l with
  | [] => []
  | c :: cs =>
    if cs.contains '/' then afterLastSep cs
    else if c = '/' then cs
    else c :: cs

/-- Index of the last occurrence of `c`, if any. -/
def lastIdxOf (c : Char) (l : List Char) : Option Nat :=
  (List.range l.length).foldl
    (fun acc i => if l.get? i = some c then some i else acc) none

/-- `os.path.splitext(name)[1]` as a character list (the extension with its
leading dot, or `[]`). -/
def splitextExtension (name : List Char) : List Char :=
  let b := afterLastSep name
  match lastIdxOf '.' b with
  | none => []
  | some d => if (b.take d).any (fun ch => ch ≠ '.') then b.drop d else []

/-- Python `str.lower` restricted to ASCII (all extensions the table knows are
ASCII). -/
def lowerStr (s : List Char) : List Char := s.map Char.toLower

/-- `RagflowClient._EXT_TO_TYPE`. -/
def extToType : List (String × String) :=
  [(".pdf", "pdf"),
   (".xls", "excel"), (".xlsx", "excel"), (".xlsm", "excel"),
   (".xlsb", "excel"), (".csv", "excel"),
   (".doc", "docx"), (".docx", "docx"),
   (".ppt", "ppt"), (".pptx", "ppt")]

/-- `RagflowClient._detect_doc_type`. -/
def detect_doc_type (document_name : String) : String :=
  let ext := String.mk (lowerStr (splitextExtension document_name.toList))
  match List.lookup ext extToType with
  | some t => t
  | none =>
    if ext ≠ "" then String.mk (ext.toList.dropWhile (fun c => c = '.'))
    else "unknown"

/-- `RagflowClient._PAGE_NUMBER_TYPES` membership. -/
def has_page_number (doc_type : String) : Bool :=
  doc_type = "pdf" ∨ doc_type = "ppt"

/-- `RagflowClient._COORDINATE_TYPES` membership. -/
def has_coordinates (doc_type : String) : Bool :=
  doc_type = "pdf"

/-! ## Reference extraction — `RagflowClient.extract_references` -/

/-- Python whitespace as stripped by `str.strip()` (ASCII fragment). -/
def isPyWs (c : Char) : Bool :=
  c = ' ' ∨ c = '\t' ∨ c = '\n' ∨ c = '\r' ∨ c = Char.ofNat 11 ∨ c = Char.ofNat 12

/-- `str.strip()`: drop leading and trailing whitespace. -/
def pyStrip (l : List Char) : List Char :=
  ((l.dropWhile isPyWs).reverse.dropWhile isPyWs).reverse

/-- One chunk of the `reference` block of a completion response.  Positional
values are integers in the payloads the code decodes (`int(...)`/`float(...)`
conversions on them are exact).  `image_id`/`document_id` are `none` when the
key is absent (the code also treats an empty string as falsy). -/
structure Chunk where
  document_name : String
  positions : List (List Int)
  content : String
  image_id : Option String
  document_id : Option String
deriving DecidableEq, Repr

/-- The body of the per-chunk loop of `RagflowClient.extract_references`. -/
def extractOneReference (chunk : Chunk) : Reference :=
  let doc_name := chunk.document_name
  let doc_type := detect_doc_type doc_name
  let pageChunkCoords : Option Int × Option Int × Option (List Int) :=
    match chunk.positions with
    | [] => (none, none, none)
    | pos :: _ =>
      match pos with
      | [] => (none, none, none)
      | p0 :: _ =>
        if has_page_number doc_type then
          (some p0, none,
           if has_coordinates doc_type ∧ 5 ≤ pos.length then
             some ((pos.drop 1).take 4)
           else none)
        else (none, some p0, none)
  let page_num := pageChunkCoords.1
  let chunk_index := pageChunkCoords.2.1
  let coords := pageChunkCoords.2.2
  let image_url :=
    match chunk.image_id with
    | some s => if s ≠ "" then some ("/api/v1/proxy/image/" ++ s) else none
    | none => none
  let doc_url :=
    match chunk.document_id with
    | some s =>
      if s ≠ "" then
        some ("/api/v1/proxy/document/" ++ s ++
              (match page_num with
               | some p => "#page=" ++ toString p
               | none => ""))
      else none
    | none => none
  let content := pyStrip chunk.content.toList
  let snippet :=
    if 300 < content.length then String.mk (content.take 300 ++ ('.' :: '.' :: ['.']))
    else String.mk content
  { document_name := doc_name
    document_type := doc_type
    page_number := page_num
    chunk_index := chunk_index
    coordinates := coords
    snippet := snippet
    image_url := image_url
    document_url := doc_url }

/-- `RagflowClient.extract_references`: `none` models a missing or falsy
`reference` block; otherwise the chunks list is mapped through the per-chunk
decoding. -/
def extract_references (reference : Option (List Chunk)) : List Reference :=
  match reference with
  | none => []
  | some chunks => chunks.map extractOneReference

lemma string_mk_length (l : List Char) : (String.mk l).length = l.length := rfl

/-- C5: position decoding by inferred document type — a `.pdf` name with
positions `[[3, 10, 20, 100, 200]]` yields `page_number = 3`,
`coordinates = [10, 20, 100, 200]`, `chunk_index = none`; a `.pptx` name with
`[[5, 0, 0, 0, 0]]` yields `page_number = 5` and no coordinates; a `.xlsx`
name with `[[7, 7, 7, 7, 7]]` yields `chunk_index = 7` and no page number. -/
theorem C5_position_decoding (content : String) (img docid : Option String) :
    detect_doc_type "report.pdf" = "pdf" ∧
    detect_doc_type "slides.pptx" = "ppt" ∧
    detect_doc_type "sheet.xlsx" = "excel" ∧
    (extract_references
        (some [⟨"report.pdf", [[3, 10, 20, 100, 200]], content, img, docid⟩])).map
        Reference.page_number = [some 3] ∧
    (extract_references
        (some [⟨"report.pdf", [[3, 10, 20, 100, 200]], content, img, docid⟩])).map
        Reference.coordinates = [some [10, 20, 100, 200]] ∧
    (extract_references
        (some [⟨"report.pdf", [[3, 10, 20, 100, 200]], content, img, docid⟩])).map
        Reference.chunk_index = [none] ∧
    (extract_references
        (some [⟨"slides.pptx", [[5, 0, 0, 0, 0]], content, img, docid⟩])).map
        Reference.page_number = [some 5] ∧
    (extract_references
        (some [⟨"slides.pptx", [[5, 0, 0, 0, 0]], content, img, docid⟩])).map
        Reference.coordinates = [none] ∧
    (extract_references
        (some [⟨"slides.pptx", [[5, 0, 0, 0, 0]], content, img, docid⟩])).map
        Reference.chunk_index = [none] ∧
    (extract_references
        (some [⟨"sheet.xlsx", [[7, 7, 7, 7, 7]], content, img, docid⟩])).map
        Reference.chunk_index = [some 7] ∧
    (extract_references
        (some [⟨"sheet.xlsx", [[7, 7, 7, 7, 7]], content, img, docid⟩])).map
        Reference.page_number = [none] ∧
    (extract_references
        (some [⟨"sheet.xlsx", [[7, 7, 7, 7, 7]], content, img, docid⟩])).map
        Reference.coordinates = [none] :=
  ⟨rfl, rfl, rfl, rfl, rfl, rfl, rfl, rfl, rfl, rfl, rfl, rfl⟩

/-- C9: the snippet of every extracted reference is the whitespace-stripped
chunk content when that is at most 300 characters, and otherwise the first
300 characters of the stripped content followed by `...`; hence every
snippet in the output of `extract_references` has length at most 303. -/
theorem C9_snippet (chunks : List Chunk) (c : Chunk) (hc : c ∈ chunks) :
    ((pyStrip c.content.toList).length ≤ 300 →
      (extractOneReference c).snippet = String.mk (pyStrip c.content.toList)) ∧
    (300 < (pyStrip c.content.toList).length →
      (extractOneReference c).snippet
        = String.mk ((pyStrip c.content.toList).take 300) ++ "...") ∧
    extractOneReference c ∈ extract_references (some chunks) ∧
    (∀ r ∈ extract_references (some chunks), r.snippet.length ≤ 303) := by
  have hsnip : (extractOneReference c).snippet
      = if 300 < (pyStrip c.content.toList).length then
          String.mk ((pyStrip c.content.toList).take 300 ++ ('.' :: '.' :: ['.']))
        else String.mk (pyStrip c.content.toList) := rfl
  have hbound : ∀ (d : Chunk), (extractOneReference d).snippet.length ≤ 303 := by
    intro d
    have hs : (extractOneReference d).snippet
        = if 300 < (pyStrip d.content.toList).length then
            String.mk ((pyStrip d.content.toList).take 300 ++ ('.' :: '.' :: ['.']))
          else String.mk (pyStrip d.content.toList) := rfl
    rw [hs]
    by_cases h : 300 < (pyStrip d.content.toList).length
    · rw [if_pos h, string_mk_length]
      simp only [List.length_append, List.length_take, List.length_cons,
        List.length_nil]
      omega
    · rw [if_neg h, string_mk_length]
      omega
  refine ⟨?_, ?_, ?_, ?_⟩
  · intro h
    rw [hsnip, if_neg (by omega)]
  · intro h
    rw [hsnip, if_pos h]
    rfl
  · exact List.mem_map_of_mem extractOneReference hc
  · intro r hr
    rcases List.mem_map.mp hr with ⟨d, _, rfl⟩
    exact hbound d

/-- A concrete chunk used to instantiate the snippet theorem. -/
def sampleChunk : Chunk :=
  ⟨"notes.txt", [], "  hi there  ", none, none⟩

/-- C9 witness: the snippet theorem applied to a concrete chunk whose content
strips to `hi there`. -/
theorem C9_snippet_witness :
    (((pyStrip sampleChunk.content.toList).length ≤ 300 →
       (extractOneReference sampleChunk).snippet
         = String.mk (pyStrip sampleChunk.content.toList)) ∧
     (300 < (pyStrip sampleChunk.content.toList).length →
       (extractOneReference sampleChunk).snippet
         = String.mk ((pyStrip sampleChunk.content.toList).take 300) ++ "...") ∧
     extractOneReference sampleChunk ∈ extract_references (some [sampleChunk]) ∧
     (∀ r ∈ extract_references (some [sampleChunk]), r.snippet.length ≤ 303)) ∧
    (extractOneReference sampleChunk).snippet = "hi there" :=
  ⟨C9_snippet [sampleChunk] sampleChunk (by decide), by decide⟩

/-! ## Verdict parsing — `RagflowClient.parse_yes_no`

Python source:
```
m = re.search(r"(?i)\banswer\s*:\s*(yes|no|n/?a)\b", answer_text)
...
d = re.search(r"(?i)\bdetails?\s*:\s*(.*)", answer_text, re.DOTALL)
```
`re.search` finds the leftmost match; the embedding scans positions left to
right, checking the `\b` word boundary against the previous character, and
mirrors the regex's alternation/backtracking order at each position.
Word characters are modelled as ASCII `[a-zA-Z0-9_]`.
-/

/-- Regex `\w` (ASCII fragment). -/
def isWordChar (c : Char) : Bool := c.isAlphanum ∨ c = '_'

/-- Case-insensitive literal match; on success return the remaining input.
The keyword is given in lowercase. -/
def matchKeyword : List Char → List Char → Option (List Char)
  | [], l => some l
  | _ :: _, [] => none
  | k :: ks, c :: cs => if c.toLower = k then matchKeyword ks cs else none

/-- `\b` at the boundary between a match and the following input. -/
def wordBoundaryAfter (l : List Char) : Bool :=
  match l with
  | [] => true
  | c :: _ => ¬ isWordChar c

/-- Try one alternative of `(yes|no|n/?a)\b`: the literal followed by a word
boundary. -/
def tryCandidate (cand : List Char) (result : String) (r : List Char) :
    Option String :=
  match matchKeyword cand r with
  | some rest => if wordBoundaryAfter rest then some result else none
  | none => none

/-- The group `(yes|no|n/?a)\b` in the regex's alternation order (`n/?a`
greedily tries `n/a` before `na`). -/
def tryAnswerGroup (r : List Char) : Option String :=
  match tryCandidate ['y', 'e', 's'] "yes" r with
  | some v => some v
  | none =>
    match tryCandidate ['n', 'o'] "no" r with
    | some v => some v
    | none =>
      match tryCandidate ['n', '/', 'a'] "n/a" r with
      | some v => some v
      | none => tryCandidate ['n', 'a'] "na" r

/-- Match `answer\s*:\s*(yes|no|n/?a)\b` at the head of the input (the leading
`\b` is checked by the scanner). -/
def answerMatchAt (l : List Char) : Option String :=
  match matchKeyword ['a', 'n', 's', 'w', 'e', 'r'] l with
  | none => none
  | some rest =>
    match rest.dropWhile isPyWs with
    | ':' :: r2 => tryAnswerGroup (r2.dropWhile isPyWs)
    | _ => none

/-- Match `details?\s*:\s*(.*)` (DOTALL) at the head of the input, returning
the capture group: everything after the colon and subsequent whitespace, up
to the end of the text.  The optional `s` is tried greedily first, matching
the regex engine's backtracking. -/
def detailsMatchAt (l : List Char) : Option (List Char) :=
  match matchKeyword ['d', 'e', 't', 'a', 'i', 'l'] l with
  | none => none
  | some rest =>
    let tryTail : List Char → Option (List Char) := fun r =>
      match r.dropWhile isPyWs with
      | ':' :: r2 => some (r2.dropWhile isPyWs)
      | _ => none
    match rest with
    | c :: cs =>
      if c.toLower = 's' then
        match tryTail cs with
        | some g => some g
        | none => tryTail rest
      else tryTail rest
    | [] => tryTail rest

/-- `re.search`: try the pattern at each position from the left, with the
leading `\b` checked against the previous character. -/
def scanForMatch {α : Type} (matchAt : List Char → Option α) :
    Option Char → List Char → Option α
  | _, [] => none
  | prev, c :: cs =>
    let boundary : Bool :=
      match prev with
      | none => true
      | some p => ¬ isWordChar p
    match (if boundary then matchAt (c :: cs) else none) with
    | some v => some v
    | none => scanForMatch matchAt (some c) cs

/-- The verdict branch of `parse_yes_no`: `m.group(1).strip().upper()` is
`YES` / `NO` / anything else (`NA`, `N/A`). -/
def parse_verdict (l : List Char) : String :=
  match scanForMatch answerMatchAt none l with
  | some g => if g = "yes" then "Yes" else if g = "no" then "No" else "N/A"
  | none => "N/A"

/-- The details branch of `parse_yes_no`: `d.group(1).strip()` when the
marker is found, the full answer text otherwise. -/
def parse_details (answer_text : String) : String :=
  match scanForMatch detailsMatchAt none answer_text.toList with
  | some g => String.mk (pyStrip g)
  | none => answer_text

/-- `RagflowClient.parse_yes_no`. -/
def parse_yes_no (answer_text : String) : String × String :=
  (parse_verdict answer_text.toList, parse_details answer_text)

lemma scanForMatch_eq_none {α : Type} (matchAt : List Char → Option α) :
    ∀ (l : List Char) (prev : Option Char),
      (∀ i, matchAt (l.drop i) = none) → scanForMatch matchAt prev l = none := by
  intro l
  induction l with
  | nil => intro prev _; rfl
  | cons c cs ih =>
    intro prev h
    have h0 := h 0
    simp only [List.drop_zero] at h0
    simp only [scanForMatch, h0, ite_self]
    exact ih (some c) (fun i => h (i + 1))

/-- C6: `parse_yes_no` always returns one of the three verdicts; when no
position of the text matches the case-insensitive `Answer: Yes|No|N/A`
pattern the verdict is `N/A`; when no position matches the `Details:` marker
the details fall back to the full answer text; and the spec's concrete
examples evaluate as stated. -/
theorem C6_parse_yes_no (t : String) :
    ((parse_yes_no t).1 = "Yes" ∨ (parse_yes_no t).1 = "No" ∨
      (parse_yes_no t).1 = "N/A") ∧
    ((∀ i, answerMatchAt (t.toList.drop i) = none) → (parse_yes_no t).1 = "N/A") ∧
    ((∀ i, detailsMatchAt (t.toList.drop i) = none) → (parse_yes_no t).2 = t) ∧
    parse_yes_no "Answer: Yes\nDetails: ok" = ("Yes", "ok") ∧
    parse_yes_no "Answer: No\nDetails: x" = ("No", "x") ∧
    parse_yes_no "The document is silent on this." =
      ("N/A", "The document is silent on this.") := by
  refine ⟨?_, ?_, ?_, by decide, by decide, by decide⟩
  · show parse_verdict t.toList = "Yes" ∨ parse_verdict t.toList = "No" ∨
      parse_verdict t.toList = "N/A"
    unfold parse_verdict
    cases scanForMatch answerMatchAt none t.toList with
    | none => right; right; rfl
    | some g =>
      show (if g = "yes" then "Yes" else if g = "no" then "No" else "N/A") = "Yes" ∨
        (if g = "yes" then "Yes" else if g = "no" then "No" else "N/A") = "No" ∨
        (if g = "yes" then "Yes" else if g = "no" then "No" else "N/A") = "N/A"
      by_cases hy : g = "yes"
      · left; rw [if_pos hy]
      · by_cases hn : g = "no"
        · right; left; rw [if_neg hy, if_pos hn]
        · right; right; rw [if_neg hy, if_neg hn]
  · intro h
    show parse_verdict t.toList = "N/A"
    unfold parse_verdict
    rw [scanForMatch_eq_none answerMatchAt t.toList none h]
  · intro h
    show parse_details t = t
    unfold parse_details
    rw [scanForMatch_eq_none detailsMatchAt t.toList none h]

/-- C6 witness: the theorem applied at a concrete marker-free text. -/
theorem C6_parse_yes_no_witness :
    (((parse_yes_no "no verdict here").1 = "Yes" ∨
      (parse_yes_no "no verdict here").1 = "No" ∨
      (parse_yes_no "no verdict here").1 = "N/A") ∧
    ((∀ i, answerMatchAt (("no verdict here" : String).toList.drop i) = none) →
      (parse_yes_no "no verdict here").1 = "N/A") ∧
    ((∀ i, detailsMatchAt (("no verdict here" : String).toList.drop i) = none) →
      (parse_yes_no "no verdict here").2 = "no verdict here") ∧
    parse_yes_no "Answer: Yes\nDetails: ok" = ("Yes", "ok") ∧
    parse_yes_no "Answer: No\nDetails: x" = ("No", "x") ∧
    parse_yes_no "The document is silent on this." =
      ("N/A", "The document is silent on this.")) ∧
    (parse_yes_no "no verdict here").1 = "N/A" :=
  ⟨C6_parse_yes_no "no verdict here", by decide⟩

/-! ## Known upstream quirks — `RagflowClient.list_datasets_page` / `list_chats`

`_request` either raises `RuntimeError` (transport error, HTTP error,
non-JSON body, or upstream error envelope — all carrying a message string)
or returns the parsed JSON body.  The embedding takes the outcome of
`_request` as an explicit `Except String DataField` input; `DataField`
models the possible shapes of `body.get("data", [])`. -/

/-- Python substring test `needle in hay`. -/
def containsSub : List Char → List Char → Bool
  | needle, [] => needle.isEmpty
  | needle, c :: cs => needle.isPrefixOf (c :: cs) || containsSub needle cs

/-- Truthiness of the optional `name` filter (`if name and ...`). -/
def nameTruthy : Option String → Bool
  | some s => s ≠ ""
  | none => false

/-- The `"lacks permission"` fragment matched in `list_datasets_page`. -/
def lacksPermissionNeedle : List Char := "lacks permission".toList

/-- The fragment matched in `list_chats` for the missing-chat quirk:
`doesn` + ASCII apostrophe (code 39) + `t exist`. -/
def chatNotFoundNeedle : List Char :=
  ['d', 'o', 'e', 's', 'n', Char.ofNat 39, 't', ' ', 'e', 'x', 'i', 's', 't']

/-- Shapes of `body.get("data", [])`.  Upstream item dicts are opaque to the
error-handling logic and modelled as strings. -/
inductive DataField where
  | absent
  | list (items : List String)
  | dict (inner : Option (List String)) (total : Option Nat)
  | other
deriving DecidableEq, Repr

/-- The page dict `{"items": ..., "total": ...}` returned by
`list_datasets_page` (`total = none` models Python `None`). -/
structure DatasetsPage where
  items : List String
  total : Option Nat
deriving DecidableEq, Repr

/-- `RagflowClient.list_datasets_page`, with the `_request` outcome passed in
explicitly. -/
def list_datasets_page (name : Option String) (upstream : Except String DataField) :
    Except String DatasetsPage :=
  match upstream with
  | .error exc =>
    if nameTruthy name ∧ containsSub lacksPermissionNeedle exc.toList then
      .ok ⟨[], some 0⟩
    else .error exc
  | .ok data =>
    match data with
    | .absent => .ok ⟨[], none⟩
    | .list items => .ok ⟨items, none⟩
    | .dict inner total => .ok ⟨inner.getD [], total⟩
    | .other => .ok ⟨[], some 0⟩

/-- `RagflowClient.list_chats`, with the `_request` outcome passed in
explicitly. -/
def list_chats (name : Option String) (upstream : Except String DataField) :
    Except String (List String) :=
  match upstream with
  | .error exc =>
    if nameTruthy name ∧ containsSub chatNotFoundNeedle exc.toList then
      .ok []
    else .error exc
  | .ok data =>
    match data with
    | .list items => .ok items
    | .absent => .ok []
    | .dict _ _ => .ok []
    | .other => .ok []

/-- C8: a name-filtered dataset search failing with the upstream
permission-style message yields an empty page instead of an error, a
name-filtered chat search failing with the upstream missing-chat message
yields an empty list instead of an error, and any other upstream error is
re-raised by both. -/
theorem C8_quirk_tolerance (name : String) (hname : name ≠ "") (exc : String) :
    (containsSub lacksPermissionNeedle exc.toList = true →
      list_datasets_page (some name) (.error exc) = .ok ⟨[], some 0⟩) ∧
    (containsSub lacksPermissionNeedle exc.toList = false →
      list_datasets_page (some name) (.error exc) = .error exc) ∧
    (containsSub chatNotFoundNeedle exc.toList = true →
      list_chats (some name) (.error exc) = .ok []) ∧
    (containsSub chatNotFoundNeedle exc.toList = false →
      list_chats (some name) (.error exc) = .error exc) := by
  have ht : nameTruthy (some name) = true := by
    simp [nameTruthy, hname]
  refine ⟨fun h => ?_, fun h => ?_, fun h => ?_, fun h => ?_⟩ <;>
    simp only [String.toList] at h
  · simp [list_datasets_page, ht, h]
  · simp [list_datasets_page, ht, h]
  · simp [list_chats, ht, h]
  · simp [list_chats, ht, h]

/-- C8 witness: the theorem applied to the concrete upstream messages. -/
theorem C8_quirk_tolerance_witness :
    ((containsSub lacksPermissionNeedle
        ("RAGFlow error: the user lacks permission on this dataset" : String).toList = true →
      list_datasets_page (some "ds1")
        (.error "RAGFlow error: the user lacks permission on this dataset")
        = .ok ⟨[], some 0⟩) ∧
    (containsSub lacksPermissionNeedle
        ("RAGFlow error: the user lacks permission on this dataset" : String).toList = false →
      list_datasets_page (some "ds1")
        (.error "RAGFlow error: the user lacks permission on this dataset")
        = .error "RAGFlow error: the user lacks permission on this dataset") ∧
    (containsSub chatNotFoundNeedle
        ("RAGFlow error: the user lacks permission on this dataset" : String).toList = true →
      list_chats (some "ds1")
        (.error "RAGFlow error: the user lacks permission on this dataset") = .ok []) ∧
    (containsSub chatNotFoundNeedle
        ("RAGFlow error: the user lacks permission on this dataset" : String).toList = false →
      list_chats (some "ds1")
        (.error "RAGFlow error: the user lacks permission on this dataset")
        = .error "RAGFlow error: the user lacks permission on this dataset")) ∧
    list_datasets_page (some "ds1")
      (.error "RAGFlow error: the user lacks permission on this dataset")
      = .ok ⟨[], some 0⟩ ∧
    list_chats (some "ds1")
      (.error "RAGFlow error: the user lacks permission on this dataset")
      = .error "RAGFlow error: the user lacks permission on this dataset" :=
  ⟨C8_quirk_tolerance "ds1" (by decide) _, by rfl, by rfl⟩

/-! ## The state-update primitive — `services._update_status`

The primitive applies the requested field changes, stamps `updated_at`,
syncs the RAGFlow resource IDs into the status, persists the full task
(modelled by returning the updated record — `db_save_task` receives exactly
this value), and appends an audit event exactly when one of the five
visible fields changed.  The event append is wrapped in try/except in the
source; a failed append only logs, so the returned record is unaffected. -/

/-- The keyword arguments of `_update_status` (each `none` = argument not
passed). -/
structure UpdateArgs where
  state : Option TaskState
  stage : Option PipelineStage
  message : Option String
  error : Option String
  questions_processed : Option Nat
deriving DecidableEq, Repr

/-- `services._sync_ragflow_ids`. -/
def sync_ragflow_ids (r : TaskRecord) : TaskRecord :=
  { r with status := { r.status with
      dataset_id := if r.ragflow.dataset_id = "" then none else some r.ragflow.dataset_id
      dataset_ids :=
        if r.ragflow.dataset_ids ≠ [] then r.ragflow.dataset_ids
        else if r.ragflow.dataset_id ≠ "" then [r.ragflow.dataset_id] else []
      chat_id := if r.ragflow.chat_id = "" then none else some r.ragflow.chat_id
      session_id := if r.ragflow.session_id = "" then none else some r.ragflow.session_id
      document_ids := r.ragflow.document_ids
      document_statuses := r.document_statuses } }

/-- The field mutations of `_update_status` (empty-string errors are
normalised to `none`) plus the `updated_at` stamp. -/
def applyUpdates (s : TaskStatus) (a : UpdateArgs) (now : Nat) : TaskStatus :=
  let s1 := match a.state with
    | some v => { s with state := v }
    | none => s
  let s2 := match a.stage with
    | some v => { s1 with pipeline_stage := v }
    | none => s1
  let s3 := match a.message with
    | some v => { s2 with progress_message := v }
    | none => s2
  let s4 := match a.error with
    | some e => { s3 with error := if e = "" then none else some e }
    | none => s3
  let s5 := match a.questions_processed with
    | some v => { s4 with questions_processed := v }
    | none => s4
  { s5 with updated_at := now }

/-- The change test guarding the audit-event append: whether any of the five
visible fields differs between the pre-call and post-call status. -/
def statusChangedB (o n : TaskStatus) : Bool :=
  o.state ≠ n.state ∨ o.pipeline_stage ≠ n.pipeline_stage ∨
  o.progress_message ≠ n.progress_message ∨ o.error ≠ n.error ∨
  o.questions_processed ≠ n.questions_processed

/-- The audit event row appended by `_update_status`. -/
structure TaskEventRow where
  event_type : String
  state : TaskState
  pipeline_stage : PipelineStage
  message : String
  error : Option String
  payload_total : Nat
  payload_processed : Nat
deriving DecidableEq, Repr

/-- `services._update_status`: returns the persisted record and the appended
audit event (`none` when no visible field changed). -/
def update_status (r : TaskRecord) (a : UpdateArgs) (now : Nat) :
    TaskRecord × Option TaskEventRow :=
  let ns := applyUpdates r.status a now
  let r1 := sync_ragflow_ids { r with status := ns }
  (r1,
   if statusChangedB r.status ns then
     some ⟨"status_update", ns.state, ns.pipeline_stage, ns.progress_message,
           ns.error, ns.total_questions, ns.questions_processed⟩
   else none)

/-- C7: `_update_status` always stamps `updated_at` with the current time and
persists the full task, and appends an audit event exactly when one of the
five visible fields (state, stage, message, error, processed count) changed
value; in particular a call passing no arguments changes nothing and appends
no event. -/
theorem C7_update_status (r : TaskRecord) (a : UpdateArgs) (now : Nat) :
    (update_status r a now).1.status.updated_at = now ∧
    ((update_status r a now).2.isSome = true ↔
      (r.status.state ≠ (update_status r a now).1.status.state ∨
       r.status.pipeline_stage ≠ (update_status r a now).1.status.pipeline_stage ∨
       r.status.progress_message ≠ (update_status r a now).1.status.progress_message ∨
       r.status.error ≠ (update_status r a now).1.status.error ∨
       r.status.questions_processed
         ≠ (update_status r a now).1.status.questions_processed)) ∧
    (a = ⟨none, none, none, none, none⟩ → (update_status r a now).2 = none) := by
  refine ⟨rfl, ?_, ?_⟩
  · show (if statusChangedB r.status (applyUpdates r.status a now) then
        some (⟨"status_update", (applyUpdates r.status a now).state,
          (applyUpdates r.status a now).pipeline_stage,
          (applyUpdates r.status a now).progress_message,
          (applyUpdates r.status a now).error,
          (applyUpdates r.status a now).total_questions,
          (applyUpdates r.status a now).questions_processed⟩ : TaskEventRow)
      else none).isSome = true ↔
      (r.status.state ≠ (applyUpdates r.status a now).state ∨
       r.status.pipeline_stage ≠ (applyUpdates r.status a now).pipeline_stage ∨
       r.status.progress_message ≠ (applyUpdates r.status a now).progress_message ∨
       r.status.error ≠ (applyUpdates r.status a now).error ∨
       r.status.questions_processed ≠ (applyUpdates r.status a now).questions_processed)
    by_cases h : statusChangedB r.status (applyUpdates r.status a now) = true
    · rw [if_pos h]
      simp only [Option.isSome_some, true_iff]
      simpa [statusChangedB] using h
    · rw [if_neg (by simpa using h)]
      simp only [Option.isSome_none, Bool.false_eq_true, false_iff]
      intro hc
      exact h (by simpa [statusChangedB] using hc)
  · rintro rfl
    show (if statusChangedB r.status (applyUpdates r.status ⟨none, none, none, none, none⟩ now) then _ else none) = none
    have : applyUpdates r.status ⟨none, none, none, none, none⟩ now
        = { r.status with updated_at := now } := rfl
    rw [this]
    rw [if_neg ?_]
    simp [statusChangedB]

/-- C7 witness: the theorem applied at a concrete record with a no-argument
update — the event is `none`. -/
theorem C7_update_status_witness :
    ((update_status sampleTaskRecord ⟨none, none, none, none, none⟩ 42).1.status.updated_at = 42 ∧
    ((update_status sampleTaskRecord ⟨none, none, none, none, none⟩ 42).2.isSome = true ↔
      (sampleTaskRecord.status.state
         ≠ (update_status sampleTaskRecord ⟨none, none, none, none, none⟩ 42).1.status.state ∨
       sampleTaskRecord.status.pipeline_stage
         ≠ (update_status sampleTaskRecord ⟨none, none, none, none, none⟩ 42).1.status.pipeline_stage ∨
       sampleTaskRecord.status.progress_message
         ≠ (update_status sampleTaskRecord ⟨none, none, none, none, none⟩ 42).1.status.progress_message ∨
       sampleTaskRecord.status.error
         ≠ (update_status sampleTaskRecord ⟨none, none, none, none, none⟩ 42).1.status.error ∨
       sampleTaskRecord.status.questions_processed
         ≠ (update_status sampleTaskRecord ⟨none, none, none, none, none⟩ 42).1.status.questions_processed)) ∧
    ((⟨none, none, none, none, none⟩ : UpdateArgs) = ⟨none, none, none, none, none⟩ →
      (update_status sampleTaskRecord ⟨none, none, none, none, none⟩ 42).2 = none)) ∧
    (update_status sampleTaskRecord ⟨none, none, none, none, none⟩ 42).2 = none :=
  ⟨C7_update_status sampleTaskRecord ⟨none, none, none, none, none⟩ 42, by decide⟩

/-! ## Two-phase session claim — `services.claim_session_start` and
`services.add_documents_to_session`

Both operations run under the per-task store lock; the lock and the HTTP
upload are abstracted away: the record fetched under the lock is an explicit
`Option TaskRecord` input, and `upload_document` is an explicit
`uploader : filename → digest → document_id` function.  File contents enter
the dedup logic only through their SHA-256 digest, so a file is modelled as
a `(filename, digest)` pair. -/

/-- The `ValueError`s raised by the session operations. -/
inductive SessionError where
  | notFound
  | invalidState (current : TaskState)
  | noDocuments
  | noDataset
deriving DecidableEq, Repr

/-- `services.claim_session_start`. -/
def claim_session_start (record? : Option TaskRecord) (now : Nat) :
    Except SessionError TaskRecord :=
  match record? with
  | none => .error .notFound
  | some record =>
    if record.status.state = TaskState.awaiting_documents ∨
        record.status.state = TaskState.failed then
      if record.ragflow.document_ids = [] then .error .noDocuments
      else
        let r := { record with results := [], document_statuses := [] }
        .ok (update_status r
          ⟨some TaskState.parsing, some PipelineStage.document_parsing,
           some "Assessment queued. Starting document parsing...",
           some "", some 0⟩ now).1
    else .error (.invalidState record.status.state)

/-- The dedup pass of `add_documents_to_session`: drop files whose digest is
already in the task map, then in-batch duplicates (keeping the first
occurrence); count everything dropped. -/
def dedupFiles (existing : List (String × String)) (files : List (String × String)) :
    List (String × String) × Nat :=
  files.foldl
    (fun acc f =>
      if (existing.map Prod.fst).contains f.2 then (acc.1, acc.2 + 1)
      else if (acc.1.map Prod.snd).contains f.2 then (acc.1, acc.2 + 1)
      else (acc.1 ++ [f], acc.2))
    ([], 0)

/-- `models.DocumentUploadResponse`. -/
structure DocumentUploadResponse where
  task_id : String
  dataset_id : String
  uploaded_document_ids : List String
  total_documents : Nat
  message : String
deriving DecidableEq, Repr

/-- `services.add_documents_to_session`. -/
def add_documents_to_session (record? : Option TaskRecord)
    (files : List (String × String)) (uploader : String → String → String)
    (now : Nat) : Except SessionError (TaskRecord × DocumentUploadResponse) :=
  match record? with
  | none => .error .notFound
  | some record =>
    if record.status.state = TaskState.awaiting_documents ∨
        record.status.state = TaskState.failed then
      if record.ragflow.dataset_id = "" then .error .noDataset
      else
        let dd := dedupFiles record.ragflow.file_hashes files
        if dd.1 = [] ∧ 0 < dd.2 then
          .ok (record,
            ⟨record.task_id, record.ragflow.dataset_id, [],
             record.ragflow.document_ids.length,
             "All " ++ toString dd.2 ++ " document(s) were duplicates and skipped."⟩)
        else
          let newIds := dd.1.map (fun f => uploader f.1 f.2)
          let record1 := { record with ragflow := { record.ragflow with
              file_hashes := record.ragflow.file_hashes
                ++ dd.1.map (fun f => (f.2, uploader f.1 f.2))
              document_ids := record.ragflow.document_ids ++ newIds } }
          let newState : Option TaskState :=
            if record.status.state = TaskState.failed then
              some TaskState.awaiting_documents
            else none
          let msgCore := "Uploaded " ++ toString newIds.length ++ " document(s)."
            ++ (if 0 < dd.2 then
                  " Skipped " ++ toString dd.2 ++ " duplicate(s)."
                else "")
          let fullMsg := toString record1.ragflow.document_ids.length
            ++ " document(s) available. " ++ msgCore
          .ok ((update_status record1
              ⟨newState, none, some fullMsg,
               (if newState = some TaskState.awaiting_documents then some "" else none),
               none⟩ now).1,
            ⟨record.task_id, record.ragflow.dataset_id, newIds,
             record1.ragflow.document_ids.length,
             msgCore ++ " Total: "
               ++ toString record1.ragflow.document_ids.length ++ "."⟩)
    else .error (.invalidState record.status.state)

/-- A FAILED two-phase task that already holds the digest `h1`. -/
def failedDupRecord : TaskRecord :=
  ⟨"t2",
   ⟨"t2", TaskState.failed, PipelineStage.idle, "", 1, 0, 0, 0, some "boom",
    none, [], none, none, [], []⟩,
   ⟨"ds1", ["ds1"], ["doc1"], [("h1", "doc1")], "", ""⟩, [], [], []⟩

/-- C4, counterexample: calling add-documents on a FAILED task with a batch
consisting entirely of already-uploaded duplicates returns early — the task
keeps state FAILED and its error field, contradicting the unconditional
reset claimed. -/
theorem C4_counterexample :
    add_documents_to_session (some failedDupRecord) [("a.pdf", "h1")]
        (fun _ _ => "newdoc") 5
      = .ok (failedDupRecord,
          ⟨"t2", "ds1", [], 1, "All 1 document(s) were duplicates and skipped."⟩) ∧
    failedDupRecord.status.state = TaskState.failed ∧
    failedDupRecord.status.error = some "boom" :=
  ⟨rfl, rfl, rfl⟩

/-- C4 (amended): claim-and-start raises not-found for a missing task, an
invalid-state error outside AWAITING_DOCUMENTS/FAILED, and an error when no
document was uploaded; on success it clears results and document statuses,
resets the processed count, clears the error, and moves the task to PARSING.
Add-documents on a FAILED task resets it to AWAITING_DOCUMENTS and clears
its error PROVIDED the batch leaves at least one non-duplicate file to
upload (or is empty); a non-empty all-duplicate batch returns early and
leaves the task unchanged. -/
theorem C4_session_claim (record : TaskRecord) (now : Nat)
    (files : List (String × String)) (uploader : String → String → String) :
    claim_session_start none now = .error .notFound ∧
    add_documents_to_session none files uploader now = .error .notFound ∧
    (record.status.state ≠ TaskState.awaiting_documents →
      record.status.state ≠ TaskState.failed →
      claim_session_start (some record) now
          = .error (.invalidState record.status.state) ∧
      add_documents_to_session (some record) files uploader now
          = .error (.invalidState record.status.state)) ∧
    ((record.status.state = TaskState.awaiting_documents ∨
        record.status.state = TaskState.failed) →
      record.ragflow.document_ids = [] →
      claim_session_start (some record) now = .error .noDocuments) ∧
    ((record.status.state = TaskState.awaiting_documents ∨
        record.status.state = TaskState.failed) →
      record.ragflow.document_ids ≠ [] →
      ∃ r1, claim_session_start (some record) now = .ok r1 ∧
        r1.status.state = TaskState.parsing ∧
        r1.status.pipeline_stage = PipelineStage.document_parsing ∧
        r1.results = [] ∧
        r1.document_statuses = [] ∧
        r1.status.questions_processed = 0 ∧
        r1.status.error = none) ∧
    (record.status.state = TaskState.failed →
      record.ragflow.dataset_id ≠ "" →
      ¬((dedupFiles record.ragflow.file_hashes files).1 = [] ∧
        0 < (dedupFiles record.ragflow.file_hashes files).2) →
      ∃ r1 resp,
        add_documents_to_session (some record) files uploader now = .ok (r1, resp) ∧
        r1.status.state = TaskState.awaiting_documents ∧
        r1.status.error = none) := by
  refine ⟨rfl, rfl, ?_, ?_, ?_, ?_⟩
  · intro h1 h2
    have hs : ¬(record.status.state = TaskState.awaiting_documents ∨
        record.status.state = TaskState.failed) := by
      rintro (h | h)
      · exact h1 h
      · exact h2 h
    constructor
    · simp only [claim_session_start]
      rw [if_neg hs]
    · simp only [add_documents_to_session]
      rw [if_neg hs]
  · intro hs hdocs
    simp only [claim_session_start]
    rw [if_pos hs, if_pos hdocs]
  · intro hs hdocs
    simp only [claim_session_start]
    rw [if_pos hs, if_neg hdocs]
    exact ⟨_, rfl, rfl, rfl, rfl, rfl, rfl, rfl⟩
  · intro hfail hds hnodup
    simp only [add_documents_to_session]
    rw [if_pos (Or.inr hfail), if_neg hds, if_neg hnodup, hfail]
    refine ⟨_, _, rfl, ?_, ?_⟩
    · rfl
    · rfl

/-- An AWAITING_DOCUMENTS two-phase task with stale results from a prior
run. -/
def staleSessionRecord : TaskRecord :=
  ⟨"t3",
   ⟨"t3", TaskState.awaiting_documents, PipelineStage.idle, "", 1, 1, 0, 0,
    some "old error", none, [], none, none, [], []⟩,
   ⟨"ds3", ["ds3"], ["doc3"], [("h3", "doc3")], "", ""⟩, [],
   [⟨"1", "q1", "", "", "Yes", "", []⟩],
   [⟨"doc3", "f.pdf", "failed", 0, "parse error"⟩]⟩

/-- C4 witness: the theorem applied at a concrete stale AWAITING_DOCUMENTS
record; claiming it succeeds, clearing results/statuses and moving to
PARSING. -/
theorem C4_session_claim_witness :
    (claim_session_start none 7 = .error .notFound ∧
     add_documents_to_session none [] (fun _ h => h) 7 = .error .notFound ∧
     (staleSessionRecord.status.state ≠ TaskState.awaiting_documents →
       staleSessionRecord.status.state ≠ TaskState.failed →
       claim_session_start (some staleSessionRecord) 7
           = .error (.invalidState staleSessionRecord.status.state) ∧
       add_documents_to_session (some staleSessionRecord) [] (fun _ h => h) 7
           = .error (.invalidState staleSessionRecord.status.state)) ∧
     ((staleSessionRecord.status.state = TaskState.awaiting_documents ∨
         staleSessionRecord.status.state = TaskState.failed) →
       staleSessionRecord.ragflow.document_ids = [] →
       claim_session_start (some staleSessionRecord) 7 = .error .noDocuments) ∧
     ((staleSessionRecord.status.state = TaskState.awaiting_documents ∨
         staleSessionRecord.status.state = TaskState.failed) →
       staleSessionRecord.ragflow.document_ids ≠ [] →
       ∃ r1, claim_session_start (some staleSessionRecord) 7 = .ok r1 ∧
         r1.status.state = TaskState.parsing ∧
         r1.status.pipeline_stage = PipelineStage.document_parsing ∧
         r1.results = [] ∧
         r1.document_statuses = [] ∧
         r1.status.questions_processed = 0 ∧
         r1.status.error = none) ∧
     (staleSessionRecord.status.state = TaskState.failed →
       staleSessionRecord.ragflow.dataset_id ≠ "" →
       ¬((dedupFiles staleSessionRecord.ragflow.file_hashes []).1 = [] ∧
         0 < (dedupFiles staleSessionRecord.ragflow.file_hashes []).2) →
       ∃ r1 resp,
         add_documents_to_session (some staleSessionRecord) [] (fun _ h => h) 7
             = .ok (r1, resp) ∧
         r1.status.state = TaskState.awaiting_documents ∧
         r1.status.error = none)) ∧
    (∃ r1, claim_session_start (some staleSessionRecord) 7 = .ok r1 ∧
      r1.status.state = TaskState.parsing ∧ r1.results = [] ∧
      r1.status.error = none) :=
  ⟨C4_session_claim staleSessionRecord 7 [] (fun _ h => h),
   ⟨_, rfl, rfl, rfl, rfl⟩⟩

/-! ## Question-processing progress — `services._process_questions`

Each question completes exactly once, either successfully (appending a
`QuestionResult` to `record.results` and, on batch boundaries, persisting
`questions_processed = len(record.results)`) or with an exception (caught by
`asyncio.gather(..., return_exceptions=True)`, leaving the record untouched).
Under the single-threaded cooperative scheduler the appends are atomic, so a
run is a sequence of per-question outcomes in completion order.  The model
folds the per-question step over that outcome sequence;
`_PROGRESS_BATCH_SIZE = 5`. -/

/-- The progress-visible part of the record during `_process_questions`:
the length of `record.results` and the persisted `questions_processed`. -/
structure QState where
  resultsLen : Nat
  questionsProcessed : Nat
deriving DecidableEq, Repr

/-- One question completing: on success the result is appended and progress
is persisted when the new length hits a batch boundary or equals the total;
on failure nothing changes. -/
def stepQ (total : Nat) (s : QState) (ok : Bool) : QState :=
  match ok with
  | false => s
  | true =>
    { resultsLen := s.resultsLen + 1,
      questionsProcessed :=
        if (s.resultsLen + 1) % 5 = 0 ∨ s.resultsLen + 1 = total then
          s.resultsLen + 1
        else s.questionsProcessed }

/-- All intermediate states of a run over the given outcome sequence,
starting from the cleared state (results empty, progress 0). -/
def processTrace (outcomes : List Bool) : List QState :=
  outcomes.scanl (stepQ outcomes.length) ⟨0, 0⟩

/-- The final state of a run. -/
def processFinal (outcomes : List Bool) : QState :=
  outcomes.foldl (stepQ outcomes.length) ⟨0, 0⟩

/-- The tail of `run_assessment` / `run_assessment_for_session` /
`run_assessment_from_dataset`: after `_process_questions` returns (it never
raises — individual failures are only counted), the task is moved to
COMPLETED regardless of the failure count. -/
def pipelineOutcome (outcomes : List Bool) : TaskState × QState :=
  (TaskState.completed, processFinal outcomes)

lemma foldl_stepQ_resultsLen (total : Nat) :
    ∀ (l : List Bool) (s : QState),
      (l.foldl (stepQ total) s).resultsLen = s.resultsLen + l.count true := by
  intro l
  induction l with
  | nil => intro s; simp
  | cons b t ih =>
    intro s
    cases b
    · rw [List.foldl_cons]
      show (t.foldl (stepQ total) s).resultsLen = _
      rw [ih]
      simp [List.count_cons]
    · rw [List.foldl_cons, ih]
      show s.resultsLen + 1 + t.count true = s.resultsLen + (true :: t).count true
      simp [List.count_cons]
      omega

/-- Single-step facts used by the invariant proofs. -/
lemma stepQ_facts (total : Nat) (s : QState) (b : Bool) :
    (stepQ total s b).resultsLen ≤ s.resultsLen + 1 ∧
    s.resultsLen ≤ (stepQ total s b).resultsLen ∧
    (s.questionsProcessed ≤ s.resultsLen →
      (stepQ total s b).questionsProcessed ≤ (stepQ total s b).resultsLen) ∧
    (s.questionsProcessed ≤ s.resultsLen →
      s.questionsProcessed ≤ (stepQ total s b).questionsProcessed) := by
  cases b
  · exact ⟨Nat.le_succ _, Nat.le_refl _, fun h => h, fun _ => Nat.le_refl _⟩
  · refine ⟨Nat.le_refl _, Nat.le_succ _, fun h => ?_, fun h => ?_⟩
    · show (if (s.resultsLen + 1) % 5 = 0 ∨ s.resultsLen + 1 = total then
          s.resultsLen + 1 else s.questionsProcessed) ≤ s.resultsLen + 1
      by_cases hc : (s.resultsLen + 1) % 5 = 0 ∨ s.resultsLen + 1 = total
      · rw [if_pos hc]
      · rw [if_neg hc]; omega
    · show s.questionsProcessed
        ≤ (if (s.resultsLen + 1) % 5 = 0 ∨ s.resultsLen + 1 = total then
            s.resultsLen + 1 else s.questionsProcessed)
      by_cases hc : (s.resultsLen + 1) % 5 = 0 ∨ s.resultsLen + 1 = total
      · rw [if_pos hc]; omega
      · rw [if_neg hc]

lemma trace_invariant (total : Nat) :
    ∀ (l : List Bool) (s0 : QState),
      s0.questionsProcessed ≤ s0.resultsLen →
      s0.resultsLen + l.count true ≤ total →
      ∀ s ∈ l.scanl (stepQ total) s0,
        s.resultsLen ≤ total ∧ s.questionsProcessed ≤ s.resultsLen := by
  intro l
  induction l with
  | nil =>
    intro s0 h1 h2 s hs
    simp only [List.scanl_nil, List.mem_singleton] at hs
    subst hs
    simp only [List.count_nil] at h2
    exact ⟨by omega, h1⟩
  | cons b t ih =>
    intro s0 h1 h2 s hs
    rw [List.scanl_cons, List.singleton_append] at hs
    rcases List.mem_cons.mp hs with rfl | hs
    · exact ⟨by omega, h1⟩
    · refine ih (stepQ total s0 b) ((stepQ_facts total s0 b).2.2.1 h1) ?_ s hs
      cases b
      · show s0.resultsLen + t.count true ≤ total
        have hc : (false :: t).count true = t.count true := by
          simp [List.count_cons]
        omega
      · show s0.resultsLen + 1 + t.count true ≤ total
        have hc : (true :: t).count true = t.count true + 1 := by
          simp [List.count_cons]
        omega

lemma scanl_head (f : QState → Bool → QState) (s0 : QState) (l : List Bool) :
    (l.scanl f s0).head? = some s0 := by
  cases l <;> rfl

lemma trace_monotone (total : Nat) :
    ∀ (l : List Bool) (s0 : QState),
      s0.questionsProcessed ≤ s0.resultsLen →
      List.Chain' (fun a b => a.questionsProcessed ≤ b.questionsProcessed)
        (l.scanl (stepQ total) s0) := by
  intro l
  induction l with
  | nil => intro s0 _; simp
  | cons b t ih =>
    intro s0 h1
    rw [List.scanl_cons, List.singleton_append, List.chain'_cons']
    constructor
    · intro x hx
      rw [scanl_head] at hx
      cases hx
      exact (stepQ_facts total s0 b).2.2.2 h1
    · exact ih (stepQ total s0 b) ((stepQ_facts total s0 b).2.2.1 h1)

lemma foldl_stepQ_all_true (total : Nat) :
    ∀ (l : List Bool) (s0 : QState),
      (∀ x ∈ l, x = true) → l ≠ [] → s0.resultsLen + l.length = total →
      (l.foldl (stepQ total) s0).questionsProcessed = total := by
  intro l
  induction l with
  | nil => intro s0 _ h; exact absurd rfl h
  | cons b t ih =>
    intro s0 hall _ hlen
    have hb : b = true := hall b (List.mem_cons_self b t)
    subst hb
    rcases t with _ | ⟨c, t2⟩
    · rw [List.foldl_cons, List.foldl_nil]
      have h : s0.resultsLen + 1 = total := by
        simpa using hlen
      show (if (s0.resultsLen + 1) % 5 = 0 ∨ s0.resultsLen + 1 = total then
          s0.resultsLen + 1 else s0.questionsProcessed) = total
      rw [if_pos (Or.inr h), h]
    · rw [List.foldl_cons]
      refine ih _ (fun x hx => hall x (List.mem_cons_of_mem _ hx)) (by simp) ?_
      show s0.resultsLen + 1 + (c :: t2).length = total
      simp only [List.length_cons] at hlen ⊢
      omega

/-- C2, counterexample: a run of two questions where the second fails still
reaches COMPLETED, but there the results list has length 1 ≠ 2 =
total_questions, and the persisted `questions_processed` is 0 (the final
batch write never happened because the results length never reached the
total), differing from the results length. -/
theorem C2_counterexample :
    (pipelineOutcome [true, false]).1 = TaskState.completed ∧
    (processFinal [true, false]).resultsLen = 1 ∧
    ([true, false] : List Bool).length = 2 ∧
    (processFinal [true, false]).questionsProcessed = 0 := by
  decide

/-- C2 (amended): throughout a run that starts from a cleared record, the
results list never grows beyond `total_questions` and the persisted
`questions_processed` never exceeds the results length (hence never exceeds
`total_questions`) and is non-decreasing; the run always ends COMPLETED with
results length equal to the number of successful questions; and when no
question fails, the persisted `questions_processed` equals the results
length, which equals `total_questions`. -/
theorem C2_progress_invariants (outcomes : List Bool) :
    (∀ s ∈ processTrace outcomes,
      s.resultsLen ≤ outcomes.length ∧
      s.questionsProcessed ≤ s.resultsLen ∧
      s.questionsProcessed ≤ outcomes.length) ∧
    List.Chain' (fun a b => a.questionsProcessed ≤ b.questionsProcessed)
      (processTrace outcomes) ∧
    (pipelineOutcome outcomes).1 = TaskState.completed ∧
    (processFinal outcomes).resultsLen = outcomes.count true ∧
    ((∀ x ∈ outcomes, x = true) →
      (processFinal outcomes).questionsProcessed
          = (processFinal outcomes).resultsLen ∧
      (processFinal outcomes).resultsLen = outcomes.length) := by
  refine ⟨?_, ?_, rfl, ?_, ?_⟩
  · intro s hs
    have hcl : outcomes.count true ≤ outcomes.length := List.count_le_length _ _
    have h := trace_invariant outcomes.length outcomes ⟨0, 0⟩ (by simp)
      (by simpa using hcl) s hs
    exact ⟨h.1, h.2, le_trans h.2 h.1⟩
  · exact trace_monotone outcomes.length outcomes ⟨0, 0⟩ (by simp)
  · simpa using foldl_stepQ_resultsLen outcomes.length outcomes ⟨0, 0⟩
  · intro hall
    have hlen : (processFinal outcomes).resultsLen = outcomes.length := by
      have hc : outcomes.count true = outcomes.length := by
        rw [List.count_eq_length]
        intro x hx
        exact (hall x hx).symm
      have := foldl_stepQ_resultsLen outcomes.length outcomes ⟨0, 0⟩
      simp only [hc] at this
      simpa using this
    refine ⟨?_, hlen⟩
    rw [hlen]
    by_cases hne : outcomes = []
    · subst hne; rfl
    · exact foldl_stepQ_all_true outcomes.length outcomes ⟨0, 0⟩ hall hne (by simp)

/-- C2 witness: the amended theorem applied to a concrete all-successful run
of 7 questions — at COMPLETED both counters equal 7. -/
theorem C2_progress_invariants_witness :
    ((∀ s ∈ processTrace [true, true, true, true, true, true, true],
      s.resultsLen ≤ ([true, true, true, true, true, true, true] : List Bool).length ∧
      s.questionsProcessed ≤ s.resultsLen ∧
      s.questionsProcessed
        ≤ ([true, true, true, true, true, true, true] : List Bool).length) ∧
    List.Chain' (fun a b => a.questionsProcessed ≤ b.questionsProcessed)
      (processTrace [true, true, true, true, true, true, true]) ∧
    (pipelineOutcome [true, true, true, true, true, true, true]).1
        = TaskState.completed ∧
    (processFinal [true, true, true, true, true, true, true]).resultsLen
        = ([true, true, true, true, true, true, true] : List Bool).count true ∧
    ((∀ x ∈ ([true, true, true, true, true, true, true] : List Bool), x = true) →
      (processFinal [true, true, true, true, true, true, true]).questionsProcessed
          = (processFinal [true, true, true, true, true, true, true]).resultsLen ∧
      (processFinal [true, true, true, true, true, true, true]).resultsLen
          = ([true, true, true, true, true, true, true] : List Bool).length)) ∧
    (processFinal [true, true, true, true, true, true, true]).questionsProcessed = 7 :=
  ⟨C2_progress_invariants [true, true, true, true, true, true, true], by decide⟩

/-! ## Parsing monitor — `RagflowClient.wait_for_parsing`

The loop polls `list_documents` until every requested ID is terminal or the
timeout elapses.  The embedding abstracts time: `polls k` is the document
list returned by the (k+1)-th poll, and `maxPolls` is the number of loop
iterations the timeout allows (`ceil(timeout / poll_interval)`); a positive
timeout means `1 ≤ maxPolls`.  Progress values are compared, never
computed with, so they are modelled as exact rationals. -/

/-- One document row of a `list_documents` response.  `run` is
`str(doc.get("run", ""))`, `progress` is `float(doc.get("progress", 0))`,
`name` is `none` when the `name` key is absent, `progress_msg` is
`doc.get("progress_msg", "")`. -/
structure PollDoc where
  id : String
  run : String
  progress : ℚ
  name : Option String
  progress_msg : String
deriving DecidableEq, Repr

/-- `id_to_doc = {d["id"]: d for d in docs}` followed by `id_to_doc.get(did)`:
the LAST row with a matching id wins. -/
def findDoc (docs : List PollDoc) (did : String) : Option PollDoc :=
  docs.foldl (fun acc d => if d.id = did then some d else acc) none

/-- `run in ("FAIL", "2")`. -/
def isFailRun (run : String) : Bool := run = "FAIL" ∨ run = "2"

/-- The `not_found` status row. -/
def notFoundEntry (did : String) : DocumentStatus :=
  ⟨did, "", "not_found", 0, "Document " ++ did ++ " not found in dataset"⟩

/-- The `failed` status row (`progress_msg or "Parsing failed"`). -/
def failedEntry (did : String) (doc : PollDoc) : DocumentStatus :=
  ⟨did, doc.name.getD did, "failed", doc.progress,
   if doc.progress_msg ≠ "" then doc.progress_msg else "Parsing failed"⟩

/-- The `success` status row. -/
def successEntry (did : String) (doc : PollDoc) : DocumentStatus :=
  ⟨did, doc.name.getD did, "success", 1, "Parsed successfully"⟩

/-- The `timeout` status row, built from the last poll response
(`id_to_doc.get(did, {})`). -/
def timeoutEntry (lastDocs : List PollDoc) (did : String) : DocumentStatus :=
  match findDoc lastDocs did with
  | some d => ⟨did, d.name.getD did, "timeout", d.progress, "Document parsing timed out"⟩
  | none => ⟨did, did, "timeout", 0, "Document parsing timed out"⟩

/-- Terminal classification of a present document: failure markers beat the
progress check; `progress >= 1.0` is success; otherwise not yet terminal. -/
def classifyDoc (did : String) (doc : PollDoc) : Option DocumentStatus :=
  if isFailRun doc.run then some (failedEntry did doc)
  else if 1 ≤ doc.progress then some (successEntry did doc)
  else none

/-- How one poll response resolves a document id: absent ids become
`not_found` immediately, present ids resolve by `classifyDoc` (or stay
pending). -/
def resolveAt (docs : List PollDoc) (did : String) : Option DocumentStatus :=
  match findDoc docs did with
  | none => some (notFoundEntry did)
  | some doc => classifyDoc did doc

/-- Lookup in the `terminal` dict (modelled as an association list; keys are
never inserted twice). -/
def alookup (did : String) : List (String × DocumentStatus) → Option DocumentStatus
  | [] => none
  | (k, v) :: t => if k = did then some v else alookup did t

/-- The `for did in document_ids` body of one poll iteration: resolve every
not-yet-terminal id against the response, collecting new terminal entries
and whether anything is still pending. -/
def processDids (docs : List PollDoc) :
    List String → List (String × DocumentStatus) → Bool →
    List (String × DocumentStatus) × Bool
  | [], terminal, pending => (terminal, pending)
  | did :: rest, terminal, pending =>
    if (alookup did terminal).isSome then processDids docs rest terminal pending
    else
      match resolveAt docs did with
      | some e => processDids docs rest (terminal ++ [(did, e)]) pending
      | none => processDids docs rest terminal true

/-- The polling loop: returns the terminal map, the last poll response
(`id_to_doc`, empty when no poll ran), and the number of polls executed. -/
def pollLoop (polls : Nat → List PollDoc) (dids : List String) :
    List (String × DocumentStatus) → List PollDoc → Nat → Nat →
    List (String × DocumentStatus) × List PollDoc × Nat
  | terminal, lastDocs, k, 0 => (terminal, lastDocs, k)
  | terminal, _, k, fuel + 1 =>
    let docs := polls k
    let pr := processDids docs dids terminal false
    if pr.2 then pollLoop polls dids pr.1 docs (k + 1) fuel
    else (pr.1, docs, k + 1)

/-- The post-loop fill: any id still unresolved is reported as a timeout,
with name/progress taken from the last poll response. -/
def fillTimeouts (lastDocs : List PollDoc) :
    List String → List (String × DocumentStatus) → List (String × DocumentStatus)
  | [], terminal => terminal
  | did :: rest, terminal =>
    if (alookup did terminal).isSome then fillTimeouts lastDocs rest terminal
    else fillTimeouts lastDocs rest (terminal ++ [(did, timeoutEntry lastDocs did)])

/-- `RagflowClient.wait_for_parsing`: the per-document report (in request
order) and the number of polls executed. -/
def wait_for_parsing (polls : Nat → List PollDoc) (document_ids : List String)
    (maxPolls : Nat) : List DocumentStatus × Nat :=
  (document_ids.map (fun did =>
      (alookup did
        (fillTimeouts (pollLoop polls document_ids [] [] 0 maxPolls).2.1
          document_ids (pollLoop polls document_ids [] [] 0 maxPolls).1)).getD
        ⟨did, "", "", 0, ""⟩),
   (pollLoop polls document_ids [] [] 0 maxPolls).2.2)

lemma alookup_append_of_some {did : String} {e : DocumentStatus} :
    ∀ (t l : List (String × DocumentStatus)),
      alookup did t = some e → alookup did (t ++ l) = some e := by
  intro t l h
  induction t with
  | nil => simp [alookup] at h
  | cons p rest ih =>
    rcases p with ⟨k, v⟩
    by_cases hk : k = did
    · simp only [alookup, if_pos hk] at h ⊢
      exact h
    · simp only [alookup, if_neg hk] at h ⊢
      exact ih h

lemma alookup_append_none {did : String} :
    ∀ (t l : List (String × DocumentStatus)),
      alookup did t = none → alookup did (t ++ l) = alookup did l := by
  intro t l h
  induction t with
  | nil => simp
  | cons p rest ih =>
    rcases p with ⟨k, v⟩
    by_cases hk : k = did
    · simp only [alookup, if_pos hk] at h
      exact absurd h (by simp)
    · simp only [alookup, if_neg hk] at h ⊢
      exact ih h

lemma alookup_mem {did : String} {e : DocumentStatus} :
    ∀ (t : List (String × DocumentStatus)),
      alookup did t = some e → (did, e) ∈ t := by
  intro t h
  induction t with
  | nil => simp [alookup] at h
  | cons p rest ih =>
    rcases p with ⟨k, v⟩
    by_cases hk : k = did
    · simp only [alookup, if_pos hk, Option.some.injEq] at h
      subst hk
      subst h
      exact List.mem_cons_self _ _
    · simp only [alookup, if_neg hk] at h
      exact List.mem_cons_of_mem _ (ih h)

lemma processDids_preserve (docs : List PollDoc) {did : String} {e : DocumentStatus} :
    ∀ (dids : List String) (terminal : List (String × DocumentStatus)) (p : Bool),
      alookup did terminal = some e →
      alookup did (processDids docs dids terminal p).1 = some e := by
  intro dids
  induction dids with
  | nil => intro terminal p h; exact h
  | cons d rest ih =>
    intro terminal p h
    simp only [processDids]
    by_cases hd : (alookup d terminal).isSome
    · rw [if_pos hd]
      exact ih terminal p h
    · rw [if_neg hd]
      cases hr : resolveAt docs d with
      | some f => exact ih _ p (alookup_append_of_some _ _ h)
      | none => exact ih terminal true h

lemma processDids_none_of_not_mem (docs : List PollDoc) {did : String} :
    ∀ (dids : List String) (terminal : List (String × DocumentStatus)) (p : Bool),
      did ∉ dids → alookup did terminal = none →
      alookup did (processDids docs dids terminal p).1 = none := by
  intro dids
  induction dids with
  | nil => intro terminal p _ h; exact h
  | cons d rest ih =>
    intro terminal p hmem h
    have hdd : d ≠ did := fun hc => hmem (hc ▸ List.mem_cons_self d rest)
    have hrest : did ∉ rest := fun hc => hmem (List.mem_cons_of_mem d hc)
    simp only [processDids]
    by_cases hd : (alookup d terminal).isSome
    · rw [if_pos hd]
      exact ih terminal p hrest h
    · rw [if_neg hd]
      cases hr : resolveAt docs d with
      | some f =>
        have hnone : alookup did (terminal ++ [(d, f)]) = none := by
          rw [alookup_append_none _ _ h]
          simp [alookup, hdd]
        exact ih _ p hrest hnone
      | none => exact ih terminal true hrest h

lemma processDids_resolve (docs : List PollDoc) {did : String} :
    ∀ (dids : List String) (terminal : List (String × DocumentStatus)) (p : Bool),
      did ∈ dids → alookup did terminal = none →
      alookup did (processDids docs dids terminal p).1 = resolveAt docs did := by
  intro dids
  induction dids with
  | nil => intro terminal p h; intro hn; simp at h
  | cons d rest ih =>
    intro terminal p hmem h
    simp only [processDids]
    by_cases hd : (alookup d terminal).isSome
    · rw [if_pos hd]
      rcases List.mem_cons.mp hmem with rfl | hmem2
      · rw [h] at hd
        simp at hd
      · exact ih terminal p hmem2 h
    · rw [if_neg hd]
      rcases List.mem_cons.mp hmem with rfl | hmem2
      · cases hr : resolveAt docs did with
        | some f =>
          have hsome : alookup did (terminal ++ [(did, f)]) = some f := by
            rw [alookup_append_none _ _ h]
            simp [alookup]
          rw [processDids_preserve docs rest _ p hsome]
        | none =>
          by_cases hmem2 : did ∈ rest
          · have := ih terminal true hmem2 h
            rw [hr] at this
            exact this
          · exact processDids_none_of_not_mem docs rest terminal true hmem2 h
      · cases hr : resolveAt docs d with
        | some f =>
          by_cases hdd : d = did
          · subst hdd
            have hsome : alookup d (terminal ++ [(d, f)]) = some f := by
              rw [alookup_append_none _ _ h]
              simp [alookup]
            rw [processDids_preserve docs rest _ p hsome, hr]
          · have hnone : alookup did (terminal ++ [(d, f)]) = none := by
              rw [alookup_append_none _ _ h]
              simp [alookup, hdd]
            exact ih _ p hmem2 hnone
        | none => exact ih terminal true hmem2 h

lemma processDids_pending_mono (docs : List PollDoc) :
    ∀ (dids : List String) (terminal : List (String × DocumentStatus)),
      (processDids docs dids terminal true).2 = true := by
  intro dids
  induction dids with
  | nil => intro terminal; rfl
  | cons d rest ih =>
    intro terminal
    simp only [processDids]
    by_cases hd : (alookup d terminal).isSome
    · rw [if_pos hd]; exact ih terminal
    · rw [if_neg hd]
      cases resolveAt docs d with
      | some f => exact ih _
      | none => exact ih terminal

lemma processDids_pending_of_unresolved (docs : List PollDoc) {did : String} :
    ∀ (dids : List String) (terminal : List (String × DocumentStatus)) (p : Bool),
      did ∈ dids → alookup did terminal = none → resolveAt docs did = none →
      (processDids docs dids terminal p).2 = true := by
  intro dids
  induction dids with
  | nil => intro terminal p h; simp at h
  | cons d rest ih =>
    intro terminal p hmem h hr
    simp only [processDids]
    by_cases hd : (alookup d terminal).isSome
    · rw [if_pos hd]
      rcases List.mem_cons.mp hmem with rfl | hmem2
      · rw [h] at hd
        simp at hd
      · exact ih terminal p hmem2 h hr
    · rw [if_neg hd]
      rcases List.mem_cons.mp hmem with rfl | hmem2
      · rw [hr]
        exact processDids_pending_mono docs rest terminal
      · cases hrd : resolveAt docs d with
        | some f =>
          by_cases hdd : d = did
          · subst hdd
            rw [hr] at hrd
            exact absurd hrd (by simp)
          · have hnone : alookup did (terminal ++ [(d, f)]) = none := by
              rw [alookup_append_none _ _ h]
              simp [alookup, hdd]
            exact ih _ p hmem2 hnone hr
        | none => exact processDids_pending_mono docs rest terminal

lemma processDids_not_pending (docs : List PollDoc) :
    ∀ (dids : List String) (terminal : List (String × DocumentStatus)),
      (∀ did ∈ dids, alookup did terminal ≠ none ∨ resolveAt docs did ≠ none) →
      (processDids docs dids terminal false).2 = false := by
  intro dids
  induction dids with
  | nil => intro terminal _; rfl
  | cons d rest ih =>
    intro terminal hres
    simp only [processDids]
    by_cases hd : (alookup d terminal).isSome
    · rw [if_pos hd]
      refine ih terminal (fun did hdid => ?_)
      exact hres did (List.mem_cons_of_mem d hdid)
    · rw [if_neg hd]
      cases hrd : resolveAt docs d with
      | some f =>
        refine ih _ (fun did hdid => ?_)
        rcases hres did (List.mem_cons_of_mem d hdid) with hl | hr
        · left
          cases ha : alookup did terminal with
          | none => exact absurd ha hl
          | some e => rw [alookup_append_of_some _ _ ha]; simp
        · right; exact hr
      | none =>
        rcases hres d (List.mem_cons_self d rest) with hl | hr
        · exact absurd (Option.not_isSome_iff_eq_none.mp hd) hl
        · exact absurd hrd hr

lemma pollLoop_preserve (polls : Nat → List PollDoc) (dids : List String)
    {did : String} {e : DocumentStatus} :
    ∀ (fuel k : Nat) (terminal : List (String × DocumentStatus))
      (lastDocs : List PollDoc),
      alookup did terminal = some e →
      alookup did (pollLoop polls dids terminal lastDocs k fuel).1 = some e := by
  intro fuel
  induction fuel with
  | zero => intro k terminal lastDocs h; exact h
  | succ f ih =>
    intro k terminal lastDocs h
    simp only [pollLoop]
    by_cases hp : (processDids (polls k) dids terminal false).2 = true
    · rw [if_pos hp]
      exact ih (k + 1) _ _ (processDids_preserve (polls k) dids terminal false h)
    · rw [if_neg hp]
      exact processDids_preserve (polls k) dids terminal false h

lemma pollLoop_pending (polls : Nat → List PollDoc) (dids : List String)
    {did : String} (hd : did ∈ dids) :
    ∀ (fuel k : Nat) (terminal : List (String × DocumentStatus))
      (lastDocs : List PollDoc),
      alookup did terminal = none →
      (∀ j, j < fuel → resolveAt (polls (k + j)) did = none) →
      alookup did (pollLoop polls dids terminal lastDocs k fuel).1 = none ∧
      (pollLoop polls dids terminal lastDocs k fuel).2.1
        = (match fuel with
           | 0 => lastDocs
           | f + 1 => polls (k + f)) := by
  intro fuel
  induction fuel with
  | zero => intro k terminal lastDocs h _; exact ⟨h, rfl⟩
  | succ f ih =>
    intro k terminal lastDocs h hres
    have hr0 : resolveAt (polls k) did = none := by
      have := hres 0 (Nat.succ_pos f)
      simpa using this
    have hlook : alookup did (processDids (polls k) dids terminal false).1 = none := by
      rw [processDids_resolve (polls k) dids terminal false hd h, hr0]
    have hpend : (processDids (polls k) dids terminal false).2 = true :=
      processDids_pending_of_unresolved (polls k) dids terminal false hd h hr0
    simp only [pollLoop]
    rw [if_pos hpend]
    have ihres : ∀ j, j < f → resolveAt (polls (k + 1 + j)) did = none := by
      intro j hj
      have := hres (j + 1) (by omega)
      have harg : k + (j + 1) = k + 1 + j := by omega
      rwa [harg] at this
    have hih := ih (k + 1) (processDids (polls k) dids terminal false).1 (polls k)
      hlook ihres
    refine ⟨hih.1, ?_⟩
    rw [hih.2]
    cases f with
    | zero => simp
    | succ f2 =>
      have : k + 1 + f2 = k + (f2 + 1) := by omega
      simp only [this]

lemma pollLoop_count (polls : Nat → List PollDoc) (dids : List String) :
    ∀ (fuel k : Nat) (terminal : List (String × DocumentStatus))
      (lastDocs : List PollDoc),
      k ≤ (pollLoop polls dids terminal lastDocs k fuel).2.2 ∧
      (pollLoop polls dids terminal lastDocs k fuel).2.2 ≤ k + fuel := by
  intro fuel
  induction fuel with
  | zero => intro k terminal lastDocs; exact ⟨Nat.le_refl k, Nat.le_add_right k 0⟩
  | succ f ih =>
    intro k terminal lastDocs
    simp only [pollLoop]
    by_cases hp : (processDids (polls k) dids terminal false).2 = true
    · rw [if_pos hp]
      have := ih (k + 1) (processDids (polls k) dids terminal false).1 (polls k)
      constructor
      · omega
      · omega
    · rw [if_neg hp]
      constructor
      · show k ≤ k + 1
        omega
      · show k + 1 ≤ k + (f + 1)
        omega

lemma fillTimeouts_preserve (lastDocs : List PollDoc) {did : String}
    {e : DocumentStatus} :
    ∀ (dids : List String) (terminal : List (String × DocumentStatus)),
      alookup did terminal = some e →
      alookup did (fillTimeouts lastDocs dids terminal) = some e := by
  intro dids
  induction dids with
  | nil => intro terminal h; exact h
  | cons d rest ih =>
    intro terminal h
    simp only [fillTimeouts]
    by_cases hd : (alookup d terminal).isSome
    · rw [if_pos hd]
      exact ih terminal h
    · rw [if_neg hd]
      exact ih _ (alookup_append_of_some _ _ h)

lemma fillTimeouts_resolve (lastDocs : List PollDoc) {did : String} :
    ∀ (dids : List String) (terminal : List (String × DocumentStatus)),
      did ∈ dids → alookup did terminal = none →
      alookup did (fillTimeouts lastDocs dids terminal)
        = some (timeoutEntry lastDocs did) := by
  intro dids
  induction dids with
  | nil => intro terminal h; simp at h
  | cons d rest ih =>
    intro terminal hmem h
    simp only [fillTimeouts]
    by_cases hd : (alookup d terminal).isSome
    · rw [if_pos hd]
      rcases List.mem_cons.mp hmem with rfl | hmem2
      · rw [h] at hd
        simp at hd
      · exact ih terminal hmem2 h
    · rw [if_neg hd]
      rcases List.mem_cons.mp hmem with rfl | hmem2
      · have hsome : alookup did (terminal ++ [(did, timeoutEntry lastDocs did)])
            = some (timeoutEntry lastDocs did) := by
          rw [alookup_append_none _ _ h]
          simp [alookup]
        exact fillTimeouts_preserve lastDocs rest _ hsome
      · by_cases hdd : d = did
        · subst hdd
          have hsome : alookup d (terminal ++ [(d, timeoutEntry lastDocs d)])
              = some (timeoutEntry lastDocs d) := by
            rw [alookup_append_none _ _ h]
            simp [alookup]
          exact fillTimeouts_preserve lastDocs rest _ hsome
        · have hnone : alookup did (terminal ++ [(d, timeoutEntry lastDocs d)]) = none := by
            rw [alookup_append_none _ _ h]
            simp [alookup, hdd]
          exact ih _ hmem2 hnone

/-- Every terminal-map entry is stored under its own document id. -/
def entriesWf (t : List (String × DocumentStatus)) : Prop :=
  ∀ p ∈ t, (p.2).document_id = p.1

lemma resolveAt_wf {docs : List PollDoc} {did : String} {e : DocumentStatus}
    (h : resolveAt docs did = some e) : e.document_id = did := by
  unfold resolveAt at h
  cases hf : findDoc docs did with
  | none =>
    rw [hf] at h
    cases h
    rfl
  | some doc =>
    rw [hf] at h
    have hc : classifyDoc did doc = some e := h
    unfold classifyDoc at hc
    by_cases h1 : isFailRun doc.run = true
    · rw [if_pos h1] at hc
      cases hc
      rfl
    · rw [if_neg h1] at hc
      by_cases h2 : (1 : ℚ) ≤ doc.progress
      · rw [if_pos h2] at hc
        cases hc
        rfl
      · rw [if_neg h2] at hc
        exact absurd hc (by simp)

lemma timeoutEntry_wf (lastDocs : List PollDoc) (did : String) :
    (timeoutEntry lastDocs did).document_id = did := by
  unfold timeoutEntry
  cases findDoc lastDocs did <;> rfl

lemma entriesWf_append {t : List (String × DocumentStatus)} {did : String}
    {e : DocumentStatus} (ht : entriesWf t) (he : e.document_id = did) :
    entriesWf (t ++ [(did, e)]) := by
  intro p hp
  rcases List.mem_append.mp hp with h | h
  · exact ht p h
  · simp only [List.mem_singleton] at h
    subst h
    exact he

lemma entriesWf_processDids (docs : List PollDoc) :
    ∀ (dids : List String) (terminal : List (String × DocumentStatus)) (p : Bool),
      entriesWf terminal → entriesWf (processDids docs dids terminal p).1 := by
  intro dids
  induction dids with
  | nil => intro terminal p h; exact h
  | cons d rest ih =>
    intro terminal p h
    simp only [processDids]
    by_cases hd : (alookup d terminal).isSome
    · rw [if_pos hd]
      exact ih terminal p h
    · rw [if_neg hd]
      cases hr : resolveAt docs d with
      | some f => exact ih _ p (entriesWf_append h (resolveAt_wf hr))
      | none => exact ih terminal true h

lemma entriesWf_pollLoop (polls : Nat → List PollDoc) (dids : List String) :
    ∀ (fuel k : Nat) (terminal : List (String × DocumentStatus))
      (lastDocs : List PollDoc),
      entriesWf terminal →
      entriesWf (pollLoop polls dids terminal lastDocs k fuel).1 := by
  intro fuel
  induction fuel with
  | zero => intro k terminal lastDocs h; exact h
  | succ f ih =>
    intro k terminal lastDocs h
    simp only [pollLoop]
    by_cases hp : (processDids (polls k) dids terminal false).2 = true
    · rw [if_pos hp]
      exact ih (k + 1) _ _ (entriesWf_processDids (polls k) dids terminal false h)
    · rw [if_neg hp]
      exact entriesWf_processDids (polls k) dids terminal false h

lemma entriesWf_fillTimeouts (lastDocs : List PollDoc) :
    ∀ (dids : List String) (terminal : List (String × DocumentStatus)),
      entriesWf terminal → entriesWf (fillTimeouts lastDocs dids terminal) := by
  intro dids
  induction dids with
  | nil => intro terminal h; exact h
  | cons d rest ih =>
    intro terminal h
    simp only [fillTimeouts]
    by_cases hd : (alookup d terminal).isSome
    · rw [if_pos hd]
      exact ih terminal h
    · rw [if_neg hd]
      exact ih _ (entriesWf_append h (timeoutEntry_wf lastDocs d))

lemma list_map_id_of {α : Type} (g : α → α) :
    ∀ (l : List α), (∀ a ∈ l, g a = a) → l.map g = l := by
  intro l
  induction l with
  | nil => intro _; rfl
  | cons a t ih =>
    intro h
    rw [List.map_cons, h a (List.mem_cons_self a t),
      ih (fun x hx => h x (List.mem_cons_of_mem a hx))]

lemma final_map_resolved (polls : Nat → List PollDoc) (dids : List String)
    (maxPolls : Nat) (did : String) (e : DocumentStatus) (hm : 1 ≤ maxPolls)
    (hd : did ∈ dids) (he : resolveAt (polls 0) did = some e) :
    alookup did
      (fillTimeouts (pollLoop polls dids [] [] 0 maxPolls).2.1 dids
        (pollLoop polls dids [] [] 0 maxPolls).1) = some e := by
  obtain ⟨m, rfl⟩ : ∃ m, maxPolls = m + 1 := ⟨maxPolls - 1, by omega⟩
  have h1 : alookup did (processDids (polls 0) dids [] false).1 = some e :=
    (processDids_resolve (polls 0) dids [] false hd rfl).trans he
  simp only [pollLoop]
  by_cases hp : (processDids (polls 0) dids [] false).2 = true
  · rw [if_pos hp]
    exact fillTimeouts_preserve _ dids _
      (pollLoop_preserve polls dids m 1 _ _ h1)
  · rw [if_neg hp]
    exact fillTimeouts_preserve _ dids _ h1

lemma final_map_timeout (polls : Nat → List PollDoc) (dids : List String)
    (maxPolls : Nat) (did : String) (hm : 1 ≤ maxPolls) (hd : did ∈ dids)
    (hres : ∀ k, k < maxPolls → resolveAt (polls k) did = none) :
    alookup did
      (fillTimeouts (pollLoop polls dids [] [] 0 maxPolls).2.1 dids
        (pollLoop polls dids [] [] 0 maxPolls).1)
      = some (timeoutEntry (polls (maxPolls - 1)) did) := by
  obtain ⟨m, rfl⟩ : ∃ m, maxPolls = m + 1 := ⟨maxPolls - 1, by omega⟩
  have hl := pollLoop_pending polls dids hd (m + 1) 0 [] [] rfl
    (fun j hj => by simpa using hres j (by omega))
  have h2 : (pollLoop polls dids [] [] 0 (m + 1)).2.1 = polls m := by
    have := hl.2
    simpa using this
  rw [h2]
  have hmm : m + 1 - 1 = m := by omega
  rw [hmm]
  exact fillTimeouts_resolve _ dids _ hd hl.1

/-- C3: with a positive timeout, `wait_for_parsing` returns exactly one
status row per requested document id, in request order; an id absent from
the first poll response is reported `not_found`; an id whose row carries a
failure run marker is reported `failed`; an id at full progress is reported
`success`; an id that stays present and non-terminal through every allotted
poll is reported `timeout` (never an exception); the loop never executes
more than the allotted number of polls and stops after the first poll when
every id resolves there. -/
theorem C3_wait_for_parsing (polls : Nat → List PollDoc)
    (document_ids : List String) (maxPolls : Nat) (hm : 1 ≤ maxPolls) :
    (wait_for_parsing polls document_ids maxPolls).1.length
        = document_ids.length ∧
    (wait_for_parsing polls document_ids maxPolls).1.map
        DocumentStatus.document_id = document_ids ∧
    (∀ did ∈ document_ids, findDoc (polls 0) did = none →
      notFoundEntry did ∈ (wait_for_parsing polls document_ids maxPolls).1) ∧
    (∀ did ∈ document_ids, ∀ d, findDoc (polls 0) did = some d →
      isFailRun d.run = true →
      failedEntry did d ∈ (wait_for_parsing polls document_ids maxPolls).1) ∧
    (∀ did ∈ document_ids, ∀ d, findDoc (polls 0) did = some d →
      isFailRun d.run = false → 1 ≤ d.progress →
      successEntry did d ∈ (wait_for_parsing polls document_ids maxPolls).1) ∧
    (∀ did ∈ document_ids,
      (∀ k, k < maxPolls → resolveAt (polls k) did = none) →
      timeoutEntry (polls (maxPolls - 1)) did
        ∈ (wait_for_parsing polls document_ids maxPolls).1) ∧
    (wait_for_parsing polls document_ids maxPolls).2 ≤ maxPolls ∧
    ((∀ did ∈ document_ids, resolveAt (polls 0) did ≠ none) →
      (wait_for_parsing polls document_ids maxPolls).2 = 1) := by
  have hmem_of_lookup : ∀ (did : String) (e : DocumentStatus), did ∈ document_ids →
      alookup did
        (fillTimeouts (pollLoop polls document_ids [] [] 0 maxPolls).2.1
          document_ids (pollLoop polls document_ids [] [] 0 maxPolls).1) = some e →
      e ∈ (wait_for_parsing polls document_ids maxPolls).1 := by
    intro did e hd hlk
    refine List.mem_map.mpr ⟨did, hd, ?_⟩
    rw [hlk]
    rfl
  refine ⟨?_, ?_, ?_, ?_, ?_, ?_, ?_, ?_⟩
  · simp [wait_for_parsing]
  · show (document_ids.map _).map DocumentStatus.document_id = document_ids
    rw [List.map_map]
    refine list_map_id_of _ document_ids (fun did hd => ?_)
    have hwf : entriesWf
        (fillTimeouts (pollLoop polls document_ids [] [] 0 maxPolls).2.1
          document_ids (pollLoop polls document_ids [] [] 0 maxPolls).1) :=
      entriesWf_fillTimeouts _ document_ids _
        (entriesWf_pollLoop polls document_ids maxPolls 0 [] []
          (fun p hp => by simp at hp))
    show ((alookup did _).getD _).document_id = did
    cases hx : alookup did
        (fillTimeouts (pollLoop polls document_ids [] [] 0 maxPolls).2.1
          document_ids (pollLoop polls document_ids [] [] 0 maxPolls).1) with
    | none => rfl
    | some e =>
      have := hwf _ (alookup_mem _ hx)
      simpa using this
  · intro did hd hnone
    refine hmem_of_lookup did _ hd
      (final_map_resolved polls document_ids maxPolls did _ hm hd ?_)
    simp [resolveAt, hnone]
  · intro did hd d hfind hfail
    refine hmem_of_lookup did _ hd
      (final_map_resolved polls document_ids maxPolls did _ hm hd ?_)
    simp [resolveAt, hfind, classifyDoc, hfail]
  · intro did hd d hfind hfail hprog
    refine hmem_of_lookup did _ hd
      (final_map_resolved polls document_ids maxPolls did _ hm hd ?_)
    simp [resolveAt, hfind, classifyDoc, hfail, hprog]
  · intro did hd hres
    exact hmem_of_lookup did _ hd
      (final_map_timeout polls document_ids maxPolls did hm hd hres)
  · have := pollLoop_count polls document_ids maxPolls 0 [] []
    show (pollLoop polls document_ids [] [] 0 maxPolls).2.2 ≤ maxPolls
    omega
  · intro hall
    obtain ⟨m, rfl⟩ : ∃ m, maxPolls = m + 1 := ⟨maxPolls - 1, by omega⟩
    have hp : (processDids (polls 0) document_ids [] false).2 = false := by
      refine processDids_not_pending (polls 0) document_ids [] (fun did hdid => ?_)
      exact Or.inr (hall did hdid)
    show (pollLoop polls document_ids [] [] 0 (m + 1)).2.2 = 1
    simp only [pollLoop]
    rw [if_neg (by rw [hp]; simp)]

/-- Concrete poll rows: a failed document, a completed one, and one stuck at
half progress. -/
def pollDocA : PollDoc := ⟨"a", "FAIL", 0, some "a.pdf", "boom"⟩

/-- A completed document row. -/
def pollDocB : PollDoc := ⟨"b", "1", 1, some "b.pdf", ""⟩

/-- A document row stuck at zero progress. -/
def pollDocD : PollDoc := ⟨"d", "0", 0, some "d.pdf", ""⟩

/-- A constant poll response listing the three rows (document `c` is absent). -/
def pollDocsSample : List PollDoc := [pollDocA, pollDocB, pollDocD]

/-- C3 witness: the theorem applied to a concrete two-poll scenario — the
failed, completed, absent, and stuck documents are reported `failed`,
`success`, `not_found`, and `timeout` respectively, and the report lists the
four requested ids in request order. -/
theorem C3_wait_for_parsing_witness :
    notFoundEntry "c"
      ∈ (wait_for_parsing (fun _ => pollDocsSample) ["a", "b", "c", "d"] 2).1 ∧
    failedEntry "a" pollDocA
      ∈ (wait_for_parsing (fun _ => pollDocsSample) ["a", "b", "c", "d"] 2).1 ∧
    successEntry "b" pollDocB
      ∈ (wait_for_parsing (fun _ => pollDocsSample) ["a", "b", "c", "d"] 2).1 ∧
    timeoutEntry pollDocsSample "d"
      ∈ (wait_for_parsing (fun _ => pollDocsSample) ["a", "b", "c", "d"] 2).1 ∧
    (wait_for_parsing (fun _ => pollDocsSample) ["a", "b", "c", "d"] 2).2 ≤ 2 ∧
    (wait_for_parsing (fun _ => pollDocsSample) ["a", "b", "c", "d"] 2).1.map
        DocumentStatus.document_id = ["a", "b", "c", "d"] := by
  have h := C3_wait_for_parsing (fun _ => pollDocsSample) ["a", "b", "c", "d"] 2
    (by decide)
  refine ⟨h.2.2.1 "c" (by decide) (by decide),
          h.2.2.2.1 "a" (by decide) pollDocA (by decide) (by decide),
          h.2.2.2.2.1 "b" (by decide) pollDocB (by decide) (by decide) (by decide),
          ?_, h.2.2.2.2.2.2.1, h.2.1⟩
  exact h.2.2.2.2.2.1 "d" (by decide) (by decide)

end RagflowSpec
